import Mathlib

/-!
# Verification of the `bidsify` BIDS-conversion program

Shallow embedding of `src/bidsify/functions.py`: the per-folder classification
and path-mapping routine `_rename_size`, the per-folder driver step of
`bidsify` (subject/session parsing, the copy loop, and the error collector),
and the directory-scaffolding path computation.

Modelling conventions:
* Paths and file names are `String`s; `os.stat(...).st_size` is modelled by a
  function `sizes : String → Nat` from (old) file paths to byte counts.
* Python `dict`s are insertion-ordered association lists; assignment is
  `dictUpd` (replace in place when the key exists, append otherwise).
* Fallible operations (`int(...)` on a non-numeric string, indexing an empty
  sequence, `shutil.copy` with a `None` destination) are `Option`-valued:
  `none` models an uncaught exception aborting the run.
* `os.path.join` is modelled for the shapes used by the program: all joined
  components after the first are non-empty relative names without slashes,
  except that `splitroot` (an absolute path split on `/`) starts with an
  empty component, which `os.path.join` collapses.
-/

namespace Bidsify

/-- Python `s.split(sep)` for a one-character separator, on character lists:
splits at every occurrence of the separator and keeps empty pieces
(so `''.split('_') == ['']`). -/
def splitChar (sep : Char) : List Char → List (List Char)
  | [] => [[]]
  | c :: rest =>
    match splitChar sep rest with
    | h :: t => if c == sep then [] :: h :: t else (c :: h) :: t
    | [] => if c == sep then [[], []] else [[c]]

/-- Python `s.split(sep)` on strings. -/
def pySplit (s : String) (sep : Char) : List String :=
  (splitChar sep s.data).map String.mk

/-- Python `s.lstrip('0')`: drop leading `'0'` characters. -/
def lstrip0 (s : String) : String :=
  String.mk (s.data.dropWhile (· == '0'))

/-- Python `int(s)` for the non-negative decimal strings this program feeds it;
`none` models the `ValueError` raised on an empty or non-numeric string. -/
def pyInt (s : String) : Option Nat :=
  if s.data ≠ [] ∧ s.data.all (·.isDigit) then
    some (s.data.foldl (fun a c => a * 10 + (c.toNat - 48)) 0)
  else none

/-- `os.path.join` over non-empty relative components (the shapes used here). -/
def osJoin : List String → String
  | [] => ""
  | [a] => a
  | a :: rest => a ++ "/" ++ osJoin rest

/-- `os.path.join(os.sep, *splitroot, file)` where `splitroot = root.split('/')`
for an absolute `root`: the empty leading component collapses, giving
`"/" ++ component/.../component ++ "/" ++ file`. -/
def oldPath (splitroot : List String) (file : String) : String :=
  "/" ++ osJoin (splitroot.filter (fun p => p ≠ "") ++ [file])

/-- Python `s.split('/')[-1]`. -/
def pyBasename (s : String) : String :=
  (pySplit s '/').getLastD ""

/-- Key list of a Python dict built from a possibly-repeating key sequence:
first occurrence kept, insertion order preserved. -/
def pyDedupAux : List String → List String → List String
  | _, [] => []
  | seen, x :: xs =>
    if seen.contains x then pyDedupAux seen xs else x :: pyDedupAux (x :: seen) xs

/-- `dict.fromkeys(l)` / `{k: f k for k in l}` key order. -/
def pyDedup (l : List String) : List String :=
  pyDedupAux [] l

/-- Python dict assignment `d[k] = v` on an insertion-ordered assoc list:
replaces the value in place when the key is present, appends otherwise. -/
def dictUpd {α : Type} (m : List (String × α)) (k : String) (v : α) :
    List (String × α) :=
  if m.any (fun p => p.1 == k) then
    m.map (fun p => if p.1 == k then (k, v) else p)
  else m ++ [(k, v)]

/-- Python `min(items, key=f)`: the first element attaining the minimum key. -/
def pyMinBy (f : String → Nat) : List String → Option String
  | [] => none
  | x :: xs => some (xs.foldl (fun b a => if f a < f b then a else b) x)

/-- Code-point lexicographic `≤` on character lists: the order Python uses to
compare strings. -/
def lexLe : List Char → List Char → Bool
  | [], _ => true
  | _ :: _, [] => false
  | c1 :: t1, c2 :: t2 =>
    if c1.toNat < c2.toNat then true
    else if c2.toNat < c1.toNat then false
    else lexLe t1 t2

/-- Python `a <= b` on strings. -/
def pyStrLe (a b : String) : Bool :=
  lexLe a.data b.data

/-- Python `sorted(l)` on strings: a stable sort by the code-point
lexicographic order (modelled by insertion sort, which is stable). -/
def pySorted (l : List String) : List String :=
  l.insertionSort (fun a b => pyStrLe a b = true)

/-- Python `str(l)` for a list of strings: `['a', 'b']` rendering. -/
def pyStrList (l : List String) : String :=
  "[" ++ String.intercalate ", " (l.map (fun s => "\x27" ++ s ++ "\x27")) ++ "]"

/-- Python `n in range(lo, hi)`: inclusive below, exclusive above. -/
def inPyRange (lo hi n : Nat) : Bool :=
  decide (lo ≤ n) && decide (n < hi)

/-- Python `abs(a - b)` on ints, for natural inputs. -/
def pyAbsSub (a b : Nat) : Nat :=
  ((a : Int) - (b : Int)).natAbs

/-- `functions.py` line 160: expected size for mprage files (bytes). -/
def right_size : Nat := 28836192

/-- `functions.py` line 172: destination of the chosen anatomical scan.
Note the doubled underscore produced by `sub+'_'+session+'_'+'_acq-MPRAGE_T1w.nii'`. -/
def anatDest (destpath_abs sub session : String) : String :=
  osJoin [destpath_abs, sub, session, "anat",
    sub ++ "_" ++ session ++ "_" ++ "_acq-MPRAGE_T1w.nii"]

/-- `functions.py` line 204. -/
def restDest01 (destpath_abs sub session : String) : String :=
  osJoin [destpath_abs, sub, session, "func", sub ++ "_task-rest_run-01_bold.nii"]

/-- `functions.py` line 205. -/
def restDest05 (destpath_abs sub session : String) : String :=
  osJoin [destpath_abs, sub, session, "func", sub ++ "_task-rest_run-05_bold.nii"]

/-- `functions.py` line 211. -/
def mcrDest (destpath_abs sub session : String) : String :=
  osJoin [destpath_abs, sub, session, "func", sub ++ "_task-mcr_run-02_bold.nii"]

/-- `functions.py` line 217. -/
def swmDest (destpath_abs sub session : String) : String :=
  osJoin [destpath_abs, sub, session, "func", sub ++ "_task-swm_run-03_bold.nii"]

/-- `functions.py` line 222. -/
def ddDest (destpath_abs sub session : String) : String :=
  osJoin [destpath_abs, sub, session, "func", sub ++ "_task-dd_run-04_bold.nii"]

/-- `functions.py` line 231: log files keep their original basename. -/
def logDest (destpath_abs sub session fname : String) : String :=
  osJoin [destpath_abs, sub, session, "log", fname]

/-- `functions.py` line 182: expected size of resting state scan (± 2kb),
`size in range(110590352, 110594352)`. -/
def restWindow (size : Nat) : Bool := inPyRange 110590352 110594352 size

/-- `functions.py` line 186: expected size of mcr scan (± 2kb),
`size in range(77412752, 77416752)`. -/
def mcrWindow (size : Nat) : Bool := inPyRange 77412752 77416752 size

/-- `functions.py` line 190: expected size of swm scan (± 2kb),
`size in range(82942352, 82946352)`. -/
def swmWindow (size : Nat) : Bool := inPyRange 82942352 82946352 size

/-- `functions.py` lines 176-193: partition the (deduplicated) old file paths
into the resting-state / mcr / swm / leftover buckets by byte size,
appending in iteration order, with the `elif` chain's precedence. -/
def functionalBuckets (keys : List String) (sizes : String → Nat) :
    List String × List String × List String × List String :=
  keys.foldl
    (fun acc old_file =>
      if restWindow (sizes old_file) then
        (acc.1 ++ [old_file], acc.2.1, acc.2.2.1, acc.2.2.2)
      else if mcrWindow (sizes old_file) then
        (acc.1, acc.2.1 ++ [old_file], acc.2.2.1, acc.2.2.2)
      else if swmWindow (sizes old_file) then
        (acc.1, acc.2.1, acc.2.2.1 ++ [old_file], acc.2.2.2)
      else
        (acc.1, acc.2.1, acc.2.2.1, acc.2.2.2 ++ [old_file]))
    ([], [], [], [])

/-- Python truthiness of a `path_maps` value (`None` and `''` are falsy). -/
def pyFalsy : Option String → Bool
  | none => true
  | some s => s == ""

/-- `functions.py` lines 237-243: record any still-unmapped files under the
`'Unmapped files'` label, then keep only the entries whose destination
`is not None`. -/
def finishMaps (path_maps : List (String × Option String))
    (prob_fs : List (String × String)) :
    List (String × Option String) × List (String × String) :=
  let unmapped := (path_maps.filter (fun p => pyFalsy p.2)).map (fun p => p.1)
  let prob_fs :=
    if unmapped ≠ [] then
      dictUpd prob_fs "Unmapped files"
        ("The following files were not moved and renamed: " ++ pyStrList unmapped)
    else prob_fs
  (path_maps.filter (fun p => p.2.isSome), prob_fs)

/-- `functions.py` lines 158-172 (the ANATOMY case): pick the last file whose
size equals `right_size`, or else the last file whose size equals the size of
the first file minimizing the absolute difference from `right_size` (Python
`min` returns the first minimizer), flagging the fallback. `none` models the
exceptions raised by `[...][-1]` on an empty list or `min` of an empty dict. -/
def anatomyBranch (keys : List String) (sizes : String → Nat)
    (path_maps : List (String × Option String)) (prob_fs : List (String × String))
    (destpath_abs sub session : String) :
    Option (List (String × Option String) × List (String × String)) :=
  if keys.any (fun k => sizes k == right_size) then
    match (keys.filter (fun k => sizes k == right_size)).getLast? with
    | none => none
    | some best_scan =>
      some (dictUpd path_maps best_scan (some (anatDest destpath_abs sub session)),
        prob_fs)
  else
    match pyMinBy (fun k => pyAbsSub right_size (sizes k)) keys with
    | none => none
    | some closest =>
      match (keys.filter (fun k => sizes k == sizes closest)).getLast? with
      | none => none
      | some best_scan =>
        some (dictUpd path_maps best_scan (some (anatDest destpath_abs sub session)),
          dictUpd prob_fs (pyBasename best_scan)
            ("No mprage of expected size. Used closest match: " ++ pyBasename best_scan))

/-- `functions.py` lines 195-207: map resting state scans. -/
def restsStep (rests : List String) (path_maps : List (String × Option String))
    (prob_fs : List (String × String)) (destpath_abs sub session : String) :
    List (String × Option String) × List (String × String) :=
  if rests.isEmpty then
    (path_maps, dictUpd prob_fs "Resting state"
      "No scan files matching expected size for Resting State.")
  else if rests.length == 1 then
    (path_maps, dictUpd prob_fs "Resting state"
      ("Unable to determine which Resting State scan for file: " ++ rests.headD ""))
  else if rests.length == 2 then
    (dictUpd (dictUpd path_maps ((pySorted rests).headD "")
        (some (restDest01 destpath_abs sub session)))
      (((pySorted rests).drop 1).headD "") (some (restDest05 destpath_abs sub session)),
     prob_fs)
  else
    (path_maps, dictUpd prob_fs "Resting state"
      ("Unable to identify Resting State 1 vs 2 from choices: " ++ rests.headD ""))

/-- `functions.py` lines 209-213: map mcr scans (`mcrs[-1]` when non-empty). -/
def mcrStep (mcrs : List String) (path_maps : List (String × Option String))
    (prob_fs : List (String × String)) (destpath_abs sub session : String) :
    List (String × Option String) × List (String × String) :=
  match mcrs.getLast? with
  | some m => (dictUpd path_maps m (some (mcrDest destpath_abs sub session)), prob_fs)
  | none => (path_maps, dictUpd prob_fs "MCR" "No scan files matching expected size for MCR")

/-- `functions.py` lines 215-219: map swm scans (`swms[-1]` when non-empty). -/
def swmStep (swms : List String) (path_maps : List (String × Option String))
    (prob_fs : List (String × String)) (destpath_abs sub session : String) :
    List (String × Option String) × List (String × String) :=
  match swms.getLast? with
  | some m => (dictUpd path_maps m (some (swmDest destpath_abs sub session)), prob_fs)
  | none => (path_maps, dictUpd prob_fs "SWM" "No scan files matching expected size for SWM")

/-- `functions.py` lines 221-224: map the single leftover file to the dd role. -/
def ddStep (leftovers : List String) (path_maps : List (String × Option String))
    (prob_fs : List (String × String)) (destpath_abs sub session : String) :
    List (String × Option String) × List (String × String) :=
  if leftovers.length == 1 then
    (dictUpd path_maps (leftovers.headD "") (some (ddDest destpath_abs sub session)),
     prob_fs)
  else
    (path_maps, dictUpd prob_fs "DD"
      ("Unable to identify DD scan from choices: " ++ pyStrList leftovers))

/-- `functions.py` lines 175-224 (the FUNCTIONAL case). -/
def functionalBranch (keys : List String) (sizes : String → Nat)
    (path_maps : List (String × Option String)) (prob_fs : List (String × String))
    (destpath_abs sub session : String) :
    List (String × Option String) × List (String × String) :=
  let buckets := functionalBuckets keys sizes
  let step1 := restsStep buckets.1 path_maps prob_fs destpath_abs sub session
  let step2 := mcrStep buckets.2.1 step1.1 step1.2 destpath_abs sub session
  let step3 := swmStep buckets.2.2.1 step2.1 step2.2 destpath_abs sub session
  ddStep buckets.2.2.2 step3.1 step3.2 destpath_abs sub session

/-- `functions.py` lines 227-231 (the LOG case): identity mapping into the
session's log directory, keeping each file's basename. -/
def logBranch (old_fps : List String)
    (path_maps : List (String × Option String))
    (destpath_abs sub session : String) : List (String × Option String) :=
  old_fps.foldl
    (fun m file =>
      dictUpd m file (some (logDest destpath_abs sub session (pyBasename file))))
    path_maps

/-- `functions.py` lines 139-249, `_rename_size`: per-folder classification.
The `log_changes` branch only performs file I/O and is omitted. `none` models
an uncaught exception (e.g. `int(ses)` on an empty string). Note the two
early returns (session out of range, unrecognized folder) hand back the
*unfiltered* `path_maps`, whose values are all `None`. -/
def renameSize (file_list splitroot : List String) (sub ses : String)
    (n_sessions : Nat) (destpath_abs : String) (sizes : String → Nat) :
    Option (List (String × Option String) × List (String × String)) :=
  let old_fps := file_list.map (oldPath splitroot)
  let keys := pyDedup old_fps
  let path_maps : List (String × Option String) := keys.map (fun f => (f, none))
  let prob_fs : List (String × String) := []
  -- get session number
  match pyInt ses with
  | none => none
  | some n =>
    if n ≤ n_sessions then
      let session := "ses-" ++ ses
      match splitroot.getLast? with
      | none => none
      | some cat =>
        -- deal with anatomical scans
        if cat = "ANATOMY" then
          match anatomyBranch keys sizes path_maps prob_fs destpath_abs sub session with
          | none => none
          | some pmpf => some (finishMaps pmpf.1 pmpf.2)
        -- deal with functional scans
        else if cat = "FUNCTIONAL" then
          let pmpf := functionalBranch keys sizes path_maps prob_fs destpath_abs sub session
          some (finishMaps pmpf.1 pmpf.2)
        -- deal with log files
        else if cat = "LOG" then
          some (finishMaps (logBranch old_fps path_maps destpath_abs sub session) prob_fs)
        else
          some (path_maps, dictUpd prob_fs "" ("unrecognized scan or log folder: " ++ cat))
    else
      some (path_maps, dictUpd prob_fs "Session ?" ("Unrecognized session number: " ++ ses))

/-- Hierarchical error collector: subject → session → label → message,
each level an insertion-ordered dict. -/
abbrev Collector : Type :=
  List (String × List (String × List (String × String)))

/-- `functions.py` lines 111-116: record a folder's problems. A fresh subject
gets a new entry; an existing subject has its *session* key assigned wholesale
(`problem_files[sub].update({ses: prob_fs})` replaces the entire label map
stored at that session). -/
def recordProblems (problem_files : Collector) (sub ses : String)
    (prob_fs : List (String × String)) : Collector :=
  if prob_fs.isEmpty then problem_files
  else if problem_files.any (fun p => p.1 == sub) then
    problem_files.map (fun p => if p.1 == sub then (p.1, dictUpd p.2 ses prob_fs) else p)
  else
    problem_files ++ [(sub, [(ses, prob_fs)])]

/-- `functions.py` lines 106-109: the copy loop. `shutil.copy(old, None)`
raises `TypeError`, modelled by `none`. -/
def copyFiles (path_map : List (String × Option String)) :
    Option (List (String × String)) :=
  path_map.mapM (fun p => p.2.map (fun d => (p.1, d)))

/-- `functions.py` line 99: subject and (zero-stripped) session strings from a
`<subjectID>_<sessionNumber>` folder name; `none` models the `IndexError`
when the name has no underscore. -/
def parseSubSes (dirname : String) : Option (String × String) :=
  match pySplit dirname '_' with
  | s0 :: s1 :: _ => some ("sub-" ++ s0, lstrip0 s1)
  | _ => none

/-- `functions.py` lines 94-116: one folder of the `bidsify` walk — filter
hidden files, parse `splitroot[-2]`, classify via `_rename_size`, run the copy
loop, then record the folder's problems. Returns the copies performed and the
updated collector; `none` models an exception aborting the run. -/
def bidsifyStep (n_sessions : Nat) (destpath_abs : String)
    (problem_files : Collector) (splitroot : List String)
    (files : List String) (sizes : String → Nat) :
    Option (List (String × String) × Collector) :=
  let file_list := files.filter (fun f => !(f.data.head? == some '.'))
  if file_list.isEmpty then some ([], problem_files)
  else
    match splitroot.reverse.get? 1 with
    | none => none
    | some dirname =>
      match parseSubSes dirname with
      | none => none
      | some subses =>
        match renameSize file_list splitroot subses.1 subses.2 n_sessions
            destpath_abs sizes with
        | none => none
        | some pmpf =>
          match copyFiles pmpf.1 with
          | none => none
          | some copies =>
            some (copies, recordProblems problem_files subses.1 subses.2 pmpf.2)

/-- `functions.py` lines 90-91: the pre-created destination directory
scaffolding, one path per (top-level folder, scan type, session). -/
def scaffoldDirs (destpath_abs : String) (dirs : List String)
    (scan_types : List String) (n_sessions : Nat) : List String :=
  dirs.flatMap fun direc =>
    scan_types.flatMap fun scantype =>
      (List.range n_sessions).map fun ses =>
        destpath_abs ++ "/sub-" ++ (pySplit direc '_').headD "" ++ "/ses-" ++
          toString (ses + 1) ++ "/" ++ scantype

/-- Destinations actually assigned in a path mapping. -/
def mappedDests (m : List (String × Option String)) : List String :=
  m.filterMap (fun p => p.2)

/-- Look up one subject's and session's problem dict in the collector. -/
def sesProbs (c : Collector) (sub ses : String) :
    Option (List (String × String)) :=
  (c.lookup sub).bind (fun m => m.lookup ses)

/-- Look up a single problem message. -/
def labelMsg (c : Collector) (sub ses lab : String) : Option String :=
  (sesProbs c sub ses).bind (fun m => m.lookup lab)

/-! ## Theorems -/

theorem functionalBuckets_eq (keys : List String) (sizes : String → Nat) :
    functionalBuckets keys sizes =
      (keys.filter (fun f => restWindow (sizes f)),
       keys.filter (fun f => !restWindow (sizes f) && mcrWindow (sizes f)),
       keys.filter
         (fun f => !restWindow (sizes f) && !mcrWindow (sizes f) && swmWindow (sizes f)),
       keys.filter
         (fun f => !restWindow (sizes f) && !mcrWindow (sizes f) && !swmWindow (sizes f))) := by
  have aux : ∀ (ks r m s l : List String),
      ks.foldl
        (fun acc old_file =>
          if restWindow (sizes old_file) then
            (acc.1 ++ [old_file], acc.2.1, acc.2.2.1, acc.2.2.2)
          else if mcrWindow (sizes old_file) then
            (acc.1, acc.2.1 ++ [old_file], acc.2.2.1, acc.2.2.2)
          else if swmWindow (sizes old_file) then
            (acc.1, acc.2.1, acc.2.2.1 ++ [old_file], acc.2.2.2)
          else
            (acc.1, acc.2.1, acc.2.2.1, acc.2.2.2 ++ [old_file]))
        (r, m, s, l) =
      (r ++ ks.filter (fun f => restWindow (sizes f)),
       m ++ ks.filter (fun f => !restWindow (sizes f) && mcrWindow (sizes f)),
       s ++ ks.filter
         (fun f => !restWindow (sizes f) && !mcrWindow (sizes f) && swmWindow (sizes f)),
       l ++ ks.filter
         (fun f => !restWindow (sizes f) && !mcrWindow (sizes f) && !swmWindow (sizes f))) := by
    intro ks
    induction ks with
    | nil => intro r m s l; simp
    | cons a t ih =>
      intro r m s l
      simp only [List.foldl_cons, List.filter_cons]
      by_cases h1 : restWindow (sizes a)
      · simpa [h1, List.append_assoc] using ih (r ++ [a]) m s l
      · by_cases h2 : mcrWindow (sizes a)
        · simpa [h1, h2, List.append_assoc] using ih r (m ++ [a]) s l
        · by_cases h3 : swmWindow (sizes a)
          · simpa [h1, h2, h3, List.append_assoc] using ih r m (s ++ [a]) l
          · simpa [h1, h2, h3, List.append_assoc] using ih r m s (l ++ [a])
  simpa [functionalBuckets] using aux keys [] [] [] []

/-- C5 (amended): file membership in the resting-state / mcr / swm buckets is
exactly membership of its byte size in the corresponding *half-open* window
`midpoint - tolerance ≤ size < midpoint + tolerance` (inclusive below,
exclusive above), and the leftover bucket holds exactly the files matching
none of the three windows. -/
theorem C5_window_buckets (keys : List String) (sizes : String → Nat) (f : String) :
    (f ∈ (functionalBuckets keys sizes).1 ↔
      f ∈ keys ∧ 110590352 ≤ sizes f ∧ sizes f < 110594352) ∧
    (f ∈ (functionalBuckets keys sizes).2.1 ↔
      f ∈ keys ∧ 77412752 ≤ sizes f ∧ sizes f < 77416752) ∧
    (f ∈ (functionalBuckets keys sizes).2.2.1 ↔
      f ∈ keys ∧ 82942352 ≤ sizes f ∧ sizes f < 82946352) ∧
    (f ∈ (functionalBuckets keys sizes).2.2.2 ↔
      f ∈ keys ∧ ¬ (110590352 ≤ sizes f ∧ sizes f < 110594352) ∧
        ¬ (77412752 ≤ sizes f ∧ sizes f < 77416752) ∧
        ¬ (82942352 ≤ sizes f ∧ sizes f < 82946352)) := by
  simp only [functionalBuckets_eq, List.mem_filter, restWindow, mcrWindow, swmWindow,
    inPyRange, Bool.and_eq_true, Bool.not_eq_true', Bool.and_eq_false_iff,
    decide_eq_true_eq, decide_eq_false_iff_not]
  refine ⟨trivial, and_congr_right fun _ => by omega, and_congr_right fun _ => by omega,
    and_congr_right fun _ => by omega⟩

theorem splitChar_ne_nil (sep : Char) : ∀ l : List Char, splitChar sep l ≠ [] := by
  intro l
  induction l with
  | nil => simp [splitChar]
  | cons c t ih =>
    unfold splitChar
    cases h : splitChar sep t with
    | nil => exact absurd h ih
    | cons a r =>
      by_cases hc : c == sep <;> simp [hc]

theorem splitChar_cons_sep (sep : Char) (ys : List Char) :
    splitChar sep (sep :: ys) = [] :: splitChar sep ys := by
  cases h : splitChar sep ys with
  | nil => exact absurd h (splitChar_ne_nil sep ys)
  | cons a r =>
    conv_lhs => unfold splitChar
    rw [h]
    simp

theorem splitChar_cons_ne (sep c : Char) (hc : (c == sep) = false) (l : List Char)
    (a : List Char) (r : List (List Char)) (h : splitChar sep l = a :: r) :
    splitChar sep (c :: l) = (c :: a) :: r := by
  conv_lhs => unfold splitChar
  rw [h]
  simp [hc]

theorem splitChar_append (sep : Char) :
    ∀ xs ys : List Char,
      splitChar sep (xs ++ sep :: ys) = splitChar sep xs ++ splitChar sep ys := by
  intro xs
  induction xs with
  | nil =>
    intro ys
    rw [List.nil_append, splitChar_cons_sep]
    rfl
  | cons c xs ih =>
    intro ys
    rw [List.cons_append]
    by_cases hc : (c == sep) = true
    · have hceq : c = sep := eq_of_beq hc
      subst hceq
      rw [splitChar_cons_sep, ih, splitChar_cons_sep, List.cons_append]
    · have hc' : (c == sep) = false := by simpa using hc
      cases h : splitChar sep xs with
      | nil => exact absurd h (splitChar_ne_nil sep xs)
      | cons a r =>
        have hl : splitChar sep (xs ++ sep :: ys) = a :: (r ++ splitChar sep ys) := by
          rw [ih, h, List.cons_append]
        rw [splitChar_cons_ne sep c hc' _ _ _ hl, splitChar_cons_ne sep c hc' _ _ _ h,
          List.cons_append]

theorem splitChar_no_sep (sep : Char) :
    ∀ l : List Char, (∀ c ∈ l, (c == sep) = false) → splitChar sep l = [l] := by
  intro l
  induction l with
  | nil => intro _; rfl
  | cons c t ih =>
    intro h
    have hc : (c == sep) = false := h c (List.mem_cons_self c t)
    have ht := ih (fun d hd => h d (List.mem_cons_of_mem c hd))
    unfold splitChar
    rw [ht]
    simp [hc]

theorem data_append (a b : String) : (a ++ b).data = a.data ++ b.data := rfl

theorem mk_data (s : String) : String.mk s.data = s := rfl

/-- Any string of the form `prefix ++ "/" ++ f` with `f` slash-free has
basename `f`. -/
theorem pyBasename_append (pre f : String)
    (hf : ∀ c ∈ f.data, (c == '/') = false) :
    pyBasename (pre ++ "/" ++ f) = f := by
  unfold pyBasename pySplit
  have hdata : (pre ++ "/" ++ f).data = pre.data ++ '/' :: f.data := by
    simp [data_append]
  rw [hdata, splitChar_append, splitChar_no_sep _ _ hf]
  simp [mk_data]

/-- `osJoin (parts ++ [f])`, with `parts` nonempty, appends `"/" ++ f`. -/
theorem osJoin_append_singleton :
    ∀ (parts : List String) (f : String), parts ≠ [] →
      osJoin (parts ++ [f]) = osJoin parts ++ "/" ++ f := by
  intro parts
  induction parts with
  | nil => intro f h; exact absurd rfl h
  | cons p ps ih =>
    intro f _
    cases ps with
    | nil => rfl
    | cons q qs =>
      have h2 := ih f (by simp)
      show p ++ "/" ++ osJoin ((q :: qs) ++ [f]) = (p ++ "/" ++ osJoin (q :: qs)) ++ "/" ++ f
      rw [h2, ← String.append_assoc, ← String.append_assoc]

/-- Old paths end in `"/" ++ file`: `oldPath` always produces a path whose
final slash-separated component is the file name, when that name is
slash-free. -/
theorem pyBasename_oldPath (splitroot : List String) (f : String)
    (hf : ∀ c ∈ f.data, (c == '/') = false) :
    pyBasename (oldPath splitroot f) = f := by
  unfold oldPath
  cases h : splitroot.filter (fun p => p ≠ "") with
  | nil =>
    show pyBasename ("/" ++ osJoin [f]) = f
    have : ("/" : String) ++ osJoin [f] = "" ++ "/" ++ f := by
      show ("/" : String) ++ f = "" ++ "/" ++ f
      simp
    rw [this]
    exact pyBasename_append "" f hf
  | cons p ps =>
    rw [osJoin_append_singleton (p :: ps) f (by simp), ← String.append_assoc,
      ← String.append_assoc]
    exact pyBasename_append _ f hf

theorem foldl_digits_ge (l : List Char) :
    ∀ a : Nat, a ≤ l.foldl (fun a c => a * 10 + (c.toNat - 48)) a := by
  induction l with
  | nil => intro a; exact Nat.le_refl a
  | cons c cs ih =>
    intro a
    rw [List.foldl_cons]
    exact Nat.le_trans (by omega) (ih (a * 10 + (c.toNat - 48)))

theorem dropWhile_head_not {p : Char → Bool} :
    ∀ (l : List Char) (c : Char) (cs : List Char),
      l.dropWhile p = c :: cs → p c = false := by
  intro l
  induction l with
  | nil => intro c cs h; simp [List.dropWhile] at h
  | cons a t ih =>
    intro c cs h
    by_cases hp : p a
    · rw [List.dropWhile_cons_of_pos hp] at h
      exact ih c cs h
    · rw [List.dropWhile_cons_of_neg hp] at h
      cases h
      simpa using hp

/-- A successful `int` of a zero-stripped string is at least 1: the string's
first character is a nonzero digit. -/
theorem lstrip0_pyInt_pos (suffix : String) {k : Nat}
    (hk : pyInt (lstrip0 suffix) = some k) : 1 ≤ k := by
  unfold pyInt at hk
  split at hk
  case isFalse => exact absurd hk (by simp)
  case isTrue h =>
    obtain ⟨hne, hdig⟩ := h
    injection hk with hk
    subst hk
    rcases hz : (lstrip0 suffix).data with _ | ⟨c, cs⟩
    · exact absurd hz hne
    · have hc0 : (c == '0') = false := dropWhile_head_not suffix.data c cs hz
      have hcd : c.isDigit = true := by
        have := List.all_eq_true.mp hdig
        exact this c (by rw [hz]; exact List.mem_cons_self c cs)
      have hge : 49 ≤ c.toNat := by
        simp [Char.isDigit] at hcd
        have h1 : (48 : Nat) ≤ c.toNat := hcd.1
        have h3 : c ≠ '0' := by simpa using hc0
        have h4 : c.toNat ≠ 48 := fun hv => h3 (Char.ext (UInt32.ext hv))
        omega
      rw [List.foldl_cons]
      exact Nat.le_trans (by omega) (foldl_digits_ge cs (0 * 10 + (c.toNat - 48)))

theorem mappedDests_init (l : List String) :
    mappedDests (l.map (fun f => (f, (none : Option String)))) = [] := by
  induction l with
  | nil => rfl
  | cons a t ih => simp [mappedDests, List.filterMap_cons] at ih ⊢

theorem mem_mappedDests_mapUpd (m : List (String × Option String)) (k v : String) :
    ∀ d ∈ mappedDests (m.map fun p => if p.1 == k then (k, some v) else p),
      d = v ∨ d ∈ mappedDests m := by
  induction m with
  | nil => intro d hd; simp [mappedDests] at hd
  | cons p t ih =>
    intro d hd
    by_cases hp : (p.1 == k) = true
    · rw [List.map_cons, if_pos hp] at hd
      rcases List.mem_filterMap.mp hd with ⟨q, hq, hqd⟩
      rcases List.mem_cons.mp hq with rfl | hq'
      · left; injection hqd with h; exact h.symm
      · rcases ih d (List.mem_filterMap.mpr ⟨q, hq', hqd⟩) with h | h
        · exact Or.inl h
        · right
          rcases List.mem_filterMap.mp h with ⟨q', hq', hqd'⟩
          exact List.mem_filterMap.mpr ⟨q', List.mem_cons_of_mem p hq', hqd'⟩
    · rw [List.map_cons, if_neg hp] at hd
      rcases List.mem_filterMap.mp hd with ⟨q, hq, hqd⟩
      rcases List.mem_cons.mp hq with rfl | hq'
      · right; exact List.mem_filterMap.mpr ⟨q, List.mem_cons_self q t, hqd⟩
      · rcases ih d (List.mem_filterMap.mpr ⟨q, hq', hqd⟩) with h | h
        · exact Or.inl h
        · right
          rcases List.mem_filterMap.mp h with ⟨q', hq', hqd'⟩
          exact List.mem_filterMap.mpr ⟨q', List.mem_cons_of_mem p hq', hqd'⟩

theorem mem_mappedDests_dictUpd (m : List (String × Option String)) (k v : String) :
    ∀ d ∈ mappedDests (dictUpd m k (some v)), d = v ∨ d ∈ mappedDests m := by
  unfold dictUpd
  split
  · exact mem_mappedDests_mapUpd m k v
  · intro d hd
    rw [mappedDests, List.filterMap_append] at hd
    rcases List.mem_append.mp hd with h | h
    · right; exact h
    · left; simpa [mappedDests] using h

theorem mem_mappedDests_finish (pm : List (String × Option String))
    (pf : List (String × String)) :
    ∀ d ∈ mappedDests (finishMaps pm pf).1, d ∈ mappedDests pm := by
  intro d hd
  have h1 : (finishMaps pm pf).1 = pm.filter (fun p => p.2.isSome) := rfl
  rw [h1] at hd
  unfold mappedDests at hd ⊢
  exact (((List.filter_sublist pm).filterMap _).subset : _) hd

theorem anatomyBranch_dests (keys : List String) (sizes : String → Nat)
    (m : List (String × Option String)) (p : List (String × String))
    (dp sub session : String) (pm : List (String × Option String))
    (pf : List (String × String))
    (h : anatomyBranch keys sizes m p dp sub session = some (pm, pf)) :
    ∀ d ∈ mappedDests pm, d = anatDest dp sub session ∨ d ∈ mappedDests m := by
  unfold anatomyBranch at h
  split at h
  · split at h
    · exact absurd h (by simp)
    · next best hg =>
      simp only [Option.some.injEq, Prod.mk.injEq] at h
      obtain ⟨h1, h2⟩ := h
      subst h1
      exact mem_mappedDests_dictUpd m best (anatDest dp sub session)
  · split at h
    · exact absurd h (by simp)
    · next closest hm =>
      split at h
      · exact absurd h (by simp)
      · next best hg =>
        simp only [Option.some.injEq, Prod.mk.injEq] at h
        obtain ⟨h1, h2⟩ := h
        subst h1
        exact mem_mappedDests_dictUpd m best (anatDest dp sub session)

theorem restsStep_dests (rests : List String) (m : List (String × Option String))
    (p : List (String × String)) (dp sub session : String) :
    ∀ d ∈ mappedDests (restsStep rests m p dp sub session).1,
      d = restDest01 dp sub session ∨ d = restDest05 dp sub session ∨
        d ∈ mappedDests m := by
  intro d hd
  unfold restsStep at hd
  split at hd
  · exact Or.inr (Or.inr hd)
  · split at hd
    · exact Or.inr (Or.inr hd)
    · split at hd
      · rcases mem_mappedDests_dictUpd _ _ _ d hd with h | h
        · exact Or.inr (Or.inl h)
        · rcases mem_mappedDests_dictUpd _ _ _ d h with h' | h'
          · exact Or.inl h'
          · exact Or.inr (Or.inr h')
      · exact Or.inr (Or.inr hd)

theorem mcrStep_dests (mcrs : List String) (m : List (String × Option String))
    (p : List (String × String)) (dp sub session : String) :
    ∀ d ∈ mappedDests (mcrStep mcrs m p dp sub session).1,
      d = mcrDest dp sub session ∨ d ∈ mappedDests m := by
  intro d hd
  unfold mcrStep at hd
  split at hd
  · exact mem_mappedDests_dictUpd _ _ _ d hd
  · exact Or.inr hd

theorem swmStep_dests (swms : List String) (m : List (String × Option String))
    (p : List (String × String)) (dp sub session : String) :
    ∀ d ∈ mappedDests (swmStep swms m p dp sub session).1,
      d = swmDest dp sub session ∨ d ∈ mappedDests m := by
  intro d hd
  unfold swmStep at hd
  split at hd
  · exact mem_mappedDests_dictUpd _ _ _ d hd
  · exact Or.inr hd

theorem ddStep_dests (leftovers : List String) (m : List (String × Option String))
    (p : List (String × String)) (dp sub session : String) :
    ∀ d ∈ mappedDests (ddStep leftovers m p dp sub session).1,
      d = ddDest dp sub session ∨ d ∈ mappedDests m := by
  intro d hd
  unfold ddStep at hd
  split at hd
  · exact mem_mappedDests_dictUpd _ _ _ d hd
  · exact Or.inr hd

theorem functionalBranch_dests (keys : List String) (sizes : String → Nat)
    (m : List (String × Option String)) (p : List (String × String))
    (dp sub session : String) :
    ∀ d ∈ mappedDests (functionalBranch keys sizes m p dp sub session).1,
      d = restDest01 dp sub session ∨ d = restDest05 dp sub session ∨
      d = mcrDest dp sub session ∨ d = swmDest dp sub session ∨
      d = ddDest dp sub session ∨ d ∈ mappedDests m := by
  intro d hd
  unfold functionalBranch at hd
  rcases ddStep_dests _ _ _ _ _ _ d hd with h | h
  · tauto
  rcases swmStep_dests _ _ _ _ _ _ d h with h | h
  · tauto
  rcases mcrStep_dests _ _ _ _ _ _ d h with h | h
  · tauto
  rcases restsStep_dests _ _ _ _ _ _ d h with h | h | h <;> tauto

theorem logBranch_dests (dp sub session : String) :
    ∀ (l : List String) (m : List (String × Option String)),
      ∀ d ∈ mappedDests (logBranch l m dp sub session),
        (∃ f ∈ l, d = logDest dp sub session (pyBasename f)) ∨ d ∈ mappedDests m := by
  intro l
  induction l with
  | nil => intro m d hd; exact Or.inr hd
  | cons a t ih =>
    intro m d hd
    unfold logBranch at hd ih
    rw [List.foldl_cons] at hd
    rcases ih _ d hd with ⟨f, hf, hdf⟩ | h
    · exact Or.inl ⟨f, List.mem_cons_of_mem a hf, hdf⟩
    · rcases mem_mappedDests_dictUpd _ _ _ d h with h' | h'
      · exact Or.inl ⟨a, List.mem_cons_self a t, h'⟩
      · exact Or.inr h'

/-- Every destination assigned by `_rename_size` is one of the five fixed
scan destinations or a log destination carrying the basename of one of the
folder's files. -/
theorem renameSize_dests (file_list splitroot : List String) (sub ses : String)
    (n_sessions : Nat) (destpath_abs : String) (sizes : String → Nat)
    (pm : List (String × Option String)) (pf : List (String × String))
    (hres : renameSize file_list splitroot sub ses n_sessions destpath_abs sizes =
      some (pm, pf)) :
    ∀ d ∈ mappedDests pm,
      d = anatDest destpath_abs sub ("ses-" ++ ses) ∨
      d = restDest01 destpath_abs sub ("ses-" ++ ses) ∨
      d = restDest05 destpath_abs sub ("ses-" ++ ses) ∨
      d = mcrDest destpath_abs sub ("ses-" ++ ses) ∨
      d = swmDest destpath_abs sub ("ses-" ++ ses) ∨
      d = ddDest destpath_abs sub ("ses-" ++ ses) ∨
      ∃ f ∈ file_list,
        d = logDest destpath_abs sub ("ses-" ++ ses) (pyBasename (oldPath splitroot f)) := by
  intro d hd
  unfold renameSize at hres
  split at hres
  · exact absurd hres (by simp)
  · next n hn =>
    split at hres
    · split at hres
      · exact absurd hres (by simp)
      · next cat hcat =>
        simp only [] at hres
        split at hres
        · -- ANATOMY
          split at hres
          · exact absurd hres (by simp)
          · next pmpf hana =>
            simp only [Option.some.injEq] at hres
            have hpm : pm = (finishMaps pmpf.1 pmpf.2).1 := by rw [hres]
            rw [hpm] at hd
            have hd' := mem_mappedDests_finish _ _ d hd
            rcases anatomyBranch_dests _ _ _ _ _ _ _ _ _ hana d hd' with h | h
            · exact Or.inl h
            · rw [mappedDests_init] at h
              exact absurd h (List.not_mem_nil d)
        · split at hres
          · -- FUNCTIONAL
            simp only [Option.some.injEq] at hres
            have hpm : pm =
                (finishMaps
                  (functionalBranch (pyDedup (file_list.map (oldPath splitroot))) sizes
                    ((pyDedup (file_list.map (oldPath splitroot))).map (fun f => (f, none)))
                    [] destpath_abs sub ("ses-" ++ ses)).1
                  (functionalBranch (pyDedup (file_list.map (oldPath splitroot))) sizes
                    ((pyDedup (file_list.map (oldPath splitroot))).map (fun f => (f, none)))
                    [] destpath_abs sub ("ses-" ++ ses)).2).1 := by
              rw [hres]
            rw [hpm] at hd
            have hd' := mem_mappedDests_finish _ _ d hd
            have h6 := functionalBranch_dests _ _ _ _ _ _ _ d hd'
            rw [mappedDests_init] at h6
            simp only [List.not_mem_nil, or_false] at h6
            tauto
          · split at hres
            · -- LOG
              simp only [Option.some.injEq] at hres
              have hpm : pm =
                  (finishMaps
                    (logBranch (file_list.map (oldPath splitroot))
                      ((pyDedup (file_list.map (oldPath splitroot))).map (fun f => (f, none)))
                      destpath_abs sub ("ses-" ++ ses))
                    []).1 := by
                rw [hres]
              rw [hpm] at hd
              have hd' := mem_mappedDests_finish _ _ d hd
              rcases logBranch_dests _ _ _ _ _ d hd' with ⟨f, hf, hdf⟩ | h
              · rcases List.mem_map.mp hf with ⟨g, hg, rfl⟩
                exact Or.inr (Or.inr (Or.inr (Or.inr (Or.inr (Or.inr ⟨g, hg, hdf⟩)))))
              · rw [mappedDests_init] at h
                exact absurd h (List.not_mem_nil d)
            · -- unrecognized folder
              simp only [Option.some.injEq, Prod.mk.injEq] at hres
              obtain ⟨h1, h2⟩ := hres
              rw [← h1, mappedDests_init] at hd
              exact absurd hd (List.not_mem_nil d)
    · -- session out of range
      simp only [Option.some.injEq, Prod.mk.injEq] at hres
      obtain ⟨h1, h2⟩ := hres
      rw [← h1, mappedDests_init] at hd
      exact absurd hd (List.not_mem_nil d)

/-- C3 (amended): every mapped anatomical or functional destination is
`destinationRoot/sub-<ID>/ses-<N>/<anat|func>/<filename>` where the anatomical
filename is `sub-<ID>_ses-<N>__acq-MPRAGE_T1w.nii` (session token present,
followed by a doubled underscore) but every functional filename is
`sub-<ID>_task-<task>_run-<k>_bold.nii` with *no* `ses-<N>` token; every log
destination is `destinationRoot/sub-<ID>/ses-<N>/log/<originalBasename>` with
the original basename preserved verbatim. -/
theorem C3_destination_patterns (file_list splitroot : List String) (sub ses : String)
    (n_sessions : Nat) (destpath_abs : String) (sizes : String → Nat)
    (pm : List (String × Option String)) (pf : List (String × String))
    (hslash : ∀ f ∈ file_list, ∀ c ∈ f.data, (c == '/') = false)
    (hres : renameSize file_list splitroot sub ses n_sessions destpath_abs sizes =
      some (pm, pf)) :
    ∀ d ∈ mappedDests pm,
      d ∈ anatDest destpath_abs sub ("ses-" ++ ses) ::
        restDest01 destpath_abs sub ("ses-" ++ ses) ::
        restDest05 destpath_abs sub ("ses-" ++ ses) ::
        mcrDest destpath_abs sub ("ses-" ++ ses) ::
        swmDest destpath_abs sub ("ses-" ++ ses) ::
        ddDest destpath_abs sub ("ses-" ++ ses) ::
        file_list.map (fun f => logDest destpath_abs sub ("ses-" ++ ses) f) := by
  intro d hd
  rcases renameSize_dests file_list splitroot sub ses n_sessions destpath_abs sizes
      pm pf hres d hd with h | h | h | h | h | h | ⟨f, hf, hdf⟩
  · simp [h]
  · simp [h]
  · simp [h]
  · simp [h]
  · simp [h]
  · simp [h]
  · rw [pyBasename_oldPath splitroot f (hslash f hf)] at hdf
    have hmem : d ∈ file_list.map
        (fun f => logDest destpath_abs sub ("ses-" ++ ses) f) :=
      List.mem_map.mpr ⟨f, hf, hdf.symm⟩
    simp [List.mem_cons, hmem]

/-- Witness for `C3_destination_patterns`: a concrete ANATOMY folder. -/
theorem C3_destination_patterns_witness :
    "/dest/sub-0001/ses-1/anat/sub-0001_ses-1__acq-MPRAGE_T1w.nii" ∈
      ("/dest/sub-0001/ses-1/anat/sub-0001_ses-1__acq-MPRAGE_T1w.nii" ::
       "/dest/sub-0001/ses-1/func/sub-0001_task-rest_run-01_bold.nii" ::
       "/dest/sub-0001/ses-1/func/sub-0001_task-rest_run-05_bold.nii" ::
       "/dest/sub-0001/ses-1/func/sub-0001_task-mcr_run-02_bold.nii" ::
       "/dest/sub-0001/ses-1/func/sub-0001_task-swm_run-03_bold.nii" ::
       "/dest/sub-0001/ses-1/func/sub-0001_task-dd_run-04_bold.nii" ::
       ["/dest/sub-0001/ses-1/log/a.nii"] : List String) :=
  C3_destination_patterns ["a.nii"] ["", "data", "0001_1", "ANATOMY"] "sub-0001" "1" 1
    "/dest" (fun _ => 28836192)
    [("/data/0001_1/ANATOMY/a.nii",
      some "/dest/sub-0001/ses-1/anat/sub-0001_ses-1__acq-MPRAGE_T1w.nii")] []
    (by decide) rfl
    "/dest/sub-0001/ses-1/anat/sub-0001_ses-1__acq-MPRAGE_T1w.nii" (by decide)

theorem slashFree_append (a b : String)
    (ha : ∀ ch ∈ a.data, (ch == '/') = false)
    (hb : ∀ ch ∈ b.data, (ch == '/') = false) :
    ∀ ch ∈ (a ++ b).data, (ch == '/') = false := by
  intro ch hch
  rw [data_append] at hch
  rcases List.mem_append.mp hch with h | h
  · exact ha ch h
  · exact hb ch h

/-- The second-to-last slash-separated component of a five-component joined
path is the fourth component, when the last four components are slash-free. -/
theorem pySplit_osJoin5_secondLast (dp sub sesS c fname : String)
    (hsub : ∀ ch ∈ sub.data, (ch == '/') = false)
    (hses : ∀ ch ∈ sesS.data, (ch == '/') = false)
    (hc : ∀ ch ∈ c.data, (ch == '/') = false)
    (hf : ∀ ch ∈ fname.data, (ch == '/') = false) :
    (pySplit (osJoin [dp, sub, sesS, c, fname]) '/').reverse.get? 1 = some c := by
  have hjoin : osJoin [dp, sub, sesS, c, fname] =
      dp ++ "/" ++ (sub ++ "/" ++ (sesS ++ "/" ++ (c ++ "/" ++ fname))) := rfl
  unfold pySplit
  rw [hjoin]
  have hdata : (dp ++ "/" ++ (sub ++ "/" ++ (sesS ++ "/" ++ (c ++ "/" ++ fname)))).data =
      dp.data ++ '/' ::
        (sub.data ++ '/' :: (sesS.data ++ '/' :: (c.data ++ '/' :: fname.data))) := by
    simp [data_append]
  rw [hdata, splitChar_append, splitChar_append, splitChar_append, splitChar_append,
    splitChar_no_sep _ _ hsub, splitChar_no_sep _ _ hses, splitChar_no_sep _ _ hc,
    splitChar_no_sep _ _ hf]
  simp [List.map_append, List.reverse_append, mk_data]

/-- C7 (amended): the destination folder component of every mapped file's path
is one of the *fixed* names `anat`, `func`, `log`, hardcoded in the path
builder (which never consults the configured `scan_types`); the configured
`scan_types` names are used only for the pre-created directory scaffolding,
whose every path ends in a configured name. The two sets of names coincide
only for the default configuration `[anat, func, log]`. -/
theorem C7_fixed_category_names (file_list splitroot : List String) (sub ses : String)
    (n_sessions : Nat) (destpath_abs : String) (sizes : String → Nat)
    (pm : List (String × Option String)) (pf : List (String × String))
    (hsub : ∀ ch ∈ sub.data, (ch == '/') = false)
    (hses : ∀ ch ∈ ses.data, (ch == '/') = false)
    (hslash : ∀ f ∈ file_list, ∀ c ∈ f.data, (c == '/') = false)
    (hres : renameSize file_list splitroot sub ses n_sessions destpath_abs sizes =
      some (pm, pf)) :
    (∀ d ∈ mappedDests pm,
      (pySplit d '/').reverse.get? 1 = some "anat" ∨
      (pySplit d '/').reverse.get? 1 = some "func" ∨
      (pySplit d '/').reverse.get? 1 = some "log") ∧
    (∀ (dirs scan_types : List String) (p : String),
      p ∈ scaffoldDirs destpath_abs dirs scan_types n_sessions →
      ∃ st ∈ scan_types, ∃ pre, p = pre ++ "/" ++ st) := by
  have hsesS : ∀ ch ∈ ("ses-" ++ ses).data, (ch == '/') = false :=
    slashFree_append "ses-" ses (by decide) hses
  have hanatF : ∀ ch ∈ (sub ++ "_" ++ ("ses-" ++ ses) ++ "_" ++ "_acq-MPRAGE_T1w.nii").data,
      (ch == '/') = false :=
    slashFree_append _ "_acq-MPRAGE_T1w.nii"
      (slashFree_append _ "_"
        (slashFree_append _ ("ses-" ++ ses)
          (slashFree_append sub "_" hsub (by decide)) hsesS)
        (by decide))
      (by decide)
  constructor
  · intro d hd
    rcases renameSize_dests file_list splitroot sub ses n_sessions destpath_abs sizes
        pm pf hres d hd with h | h | h | h | h | h | ⟨f, hf, hdf⟩
    · left
      rw [h]
      exact pySplit_osJoin5_secondLast destpath_abs sub ("ses-" ++ ses) "anat" _
        hsub hsesS (by decide) hanatF
    · right; left
      rw [h]
      exact pySplit_osJoin5_secondLast destpath_abs sub ("ses-" ++ ses) "func" _
        hsub hsesS (by decide) (slashFree_append sub _ hsub (by decide))
    · right; left
      rw [h]
      exact pySplit_osJoin5_secondLast destpath_abs sub ("ses-" ++ ses) "func" _
        hsub hsesS (by decide) (slashFree_append sub _ hsub (by decide))
    · right; left
      rw [h]
      exact pySplit_osJoin5_secondLast destpath_abs sub ("ses-" ++ ses) "func" _
        hsub hsesS (by decide) (slashFree_append sub _ hsub (by decide))
    · right; left
      rw [h]
      exact pySplit_osJoin5_secondLast destpath_abs sub ("ses-" ++ ses) "func" _
        hsub hsesS (by decide) (slashFree_append sub _ hsub (by decide))
    · right; left
      rw [h]
      exact pySplit_osJoin5_secondLast destpath_abs sub ("ses-" ++ ses) "func" _
        hsub hsesS (by decide) (slashFree_append sub _ hsub (by decide))
    · right; right
      rw [hdf, pyBasename_oldPath splitroot f (hslash f hf)]
      exact pySplit_osJoin5_secondLast destpath_abs sub ("ses-" ++ ses) "log" f
        hsub hsesS (by decide) (hslash f hf)
  · intro dirs scan_types p hp
    simp only [scaffoldDirs, List.mem_flatMap, List.mem_map] at hp
    obtain ⟨direc, _, st, hst, ⟨s, _, rfl⟩⟩ := hp
    exact ⟨st, hst, _, rfl⟩

/-- Witness for `C7_fixed_category_names`: a mapped anatomical destination's
folder component is `anat`. -/
theorem C7_fixed_category_names_witness :
    (pySplit "/dest/sub-0001/ses-1/anat/sub-0001_ses-1__acq-MPRAGE_T1w.nii" '/').reverse.get?
        1 = some "anat" ∨
    (pySplit "/dest/sub-0001/ses-1/anat/sub-0001_ses-1__acq-MPRAGE_T1w.nii" '/').reverse.get?
        1 = some "func" ∨
    (pySplit "/dest/sub-0001/ses-1/anat/sub-0001_ses-1__acq-MPRAGE_T1w.nii" '/').reverse.get?
        1 = some "log" :=
  (C7_fixed_category_names ["a.nii"] ["", "data", "0001_1", "ANATOMY"] "sub-0001" "1" 1
    "/dest" (fun _ => 28836192)
    [("/data/0001_1/ANATOMY/a.nii",
      some "/dest/sub-0001/ses-1/anat/sub-0001_ses-1__acq-MPRAGE_T1w.nii")] []
    (by decide) (by decide) (by decide) rfl).1
    "/dest/sub-0001/ses-1/anat/sub-0001_ses-1__acq-MPRAGE_T1w.nii" (by decide)

theorem string_append_left_cancel {a b c : String} (h : a ++ b = a ++ c) : b = c := by
  have hd := congrArg String.data h
  rw [data_append, data_append] at hd
  have hbc := List.append_cancel_left hd
  cases b; cases c
  exact congrArg String.mk (by simpa using hbc)

theorem oldPath_injective (splitroot : List String) :
    Function.Injective (oldPath splitroot) := by
  intro f g h
  unfold oldPath at h
  cases hp : splitroot.filter (fun p => p ≠ "") with
  | nil =>
    rw [hp] at h
    exact string_append_left_cancel h
  | cons p ps =>
    rw [hp, osJoin_append_singleton (p :: ps) f (by simp),
      osJoin_append_singleton (p :: ps) g (by simp), ← String.append_assoc,
      ← String.append_assoc] at h
    exact string_append_left_cancel h

theorem pyDedupAux_eq_self :
    ∀ (l seen : List String), l.Nodup →
      (∀ x ∈ l, seen.contains x = false) → pyDedupAux seen l = l := by
  intro l
  induction l with
  | nil => intro seen _ _; rfl
  | cons a t ih =>
    intro seen hnd hs
    unfold pyDedupAux
    rw [hs a (List.mem_cons_self a t)]
    simp only [Bool.false_eq_true, if_false]
    congr 1
    apply ih (a :: seen) (List.nodup_cons.mp hnd).2
    intro x hx
    have h1 : seen.contains x = false := hs x (List.mem_cons_of_mem a hx)
    have hne : x ≠ a := fun h => (List.nodup_cons.mp hnd).1 (h ▸ hx)
    simp
    exact ⟨hne, by simpa using h1⟩

theorem pyDedup_eq_self (l : List String) (h : l.Nodup) : pyDedup l = l :=
  pyDedupAux_eq_self l [] h (fun x _ => rfl)

theorem foldl_min_spec (f : String → Nat) :
    ∀ (xs : List String) (x : String),
      (xs.foldl (fun b a => if f a < f b then a else b) x) ∈ x :: xs ∧
      ∀ y ∈ x :: xs, f (xs.foldl (fun b a => if f a < f b then a else b) x) ≤ f y := by
  intro xs
  induction xs with
  | nil =>
    intro x
    refine ⟨List.mem_cons_self x [], ?_⟩
    intro y hy
    rcases List.mem_cons.mp hy with rfl | hy
    · exact Nat.le_refl _
    · exact absurd hy (List.not_mem_nil y)
  | cons a t ih =>
    intro x
    rw [List.foldl_cons]
    obtain ⟨hmem, hle⟩ := ih (if f a < f x then a else x)
    constructor
    · rcases List.mem_cons.mp hmem with h | h
      · rw [h]
        by_cases hfa : f a < f x
        · simp only [hfa, if_true]
          exact List.mem_cons_of_mem x (List.mem_cons_self a t)
        · simp only [hfa, if_false]
          exact List.mem_cons_self x (a :: t)
      · exact List.mem_cons_of_mem x (List.mem_cons_of_mem a h)
    · intro y hy
      rcases List.mem_cons.mp hy with heq | hy'
      · rw [heq]
        by_cases hfa : f a < f x
        · simp only [hfa, if_true] at hle ⊢
          have h1 := hle a (List.mem_cons_self a t)
          omega
        · simp only [hfa, if_false] at hle ⊢
          exact hle x (List.mem_cons_self x t)
      · rcases List.mem_cons.mp hy' with heq | hy'
        · rw [heq]
          by_cases hfa : f a < f x
          · simp only [hfa, if_true] at hle ⊢
            exact hle a (List.mem_cons_self a t)
          · simp only [hfa, if_false] at hle ⊢
            have h1 := hle x (List.mem_cons_self x t)
            omega
        · exact hle y (List.mem_cons_of_mem _ hy')

theorem pyMinBy_spec (f : String → Nat) (l : List String) (m : String)
    (h : pyMinBy f l = some m) : m ∈ l ∧ ∀ x ∈ l, f m ≤ f x := by
  cases l with
  | nil => exact absurd h (by simp [pyMinBy])
  | cons x xs =>
    simp only [pyMinBy, Option.some.injEq] at h
    obtain ⟨hmem, hle⟩ := foldl_min_spec f xs x
    rw [h] at hmem hle
    exact ⟨hmem, hle⟩

theorem mem_of_getLast? {l : List String} {a : String} (h : l.getLast? = some a) :
    a ∈ l := by
  obtain ⟨hne, heq⟩ := List.mem_getLast?_eq_getLast (by rw [h]; rfl)
  rw [heq]
  exact List.getLast_mem hne

theorem selectMap_filter_isSome_none (v k : String) :
    ∀ t : List String, k ∉ t →
      (t.map (fun f => if f == k then (k, some v) else (f, (none : Option String)))).filter
        (fun p => p.2.isSome) = [] := by
  intro t
  induction t with
  | nil => intro _; rfl
  | cons a r ih =>
    intro hk
    have ha : ¬ a = k := fun h => hk (h ▸ List.mem_cons_self a r)
    simp [List.filter_cons, ha, ih (fun h => hk (List.mem_cons_of_mem a h))]
    intro b hb
    have hbk : ¬ b = k := fun h => hk (h ▸ List.mem_cons_of_mem a hb)
    simp [hbk]

theorem selectMap_filter_isSome (v k : String) :
    ∀ keys : List String, keys.Nodup → k ∈ keys →
      (keys.map (fun f => if f == k then (k, some v) else (f, (none : Option String)))).filter
        (fun p => p.2.isSome) = [(k, some v)] := by
  intro keys
  induction keys with
  | nil => intro _ h; simp at h
  | cons a t ih =>
    intro hnd hk
    rcases List.mem_cons.mp hk with rfl | hkt
    · have hnot : k ∉ t := (List.nodup_cons.mp hnd).1
      simp [List.filter_cons, selectMap_filter_isSome_none v k t hnot]
      intro b hb
      have hbk : ¬ b = k := fun h => hnot (h ▸ hb)
      simp [hbk]
    · have ha : ¬ a = k := fun h => (List.nodup_cons.mp hnd).1 (h ▸ hkt)
      have ih2 := ih (List.nodup_cons.mp hnd).2 hkt
      simp [List.filter_cons, ha]
      simpa using ih2

theorem selectMap_filter_falsy (v k : String) (hv : (v == "") = false) :
    ∀ keys : List String,
      ((keys.map (fun f => if f == k then (k, some v) else (f, (none : Option String)))).filter
        (fun p => pyFalsy p.2)).map (fun p => p.1) = keys.filter (fun f => !(f == k)) := by
  intro keys
  induction keys with
  | nil => rfl
  | cons a t ih =>
    by_cases ha : (a == k) = true
    · have ha2 : a = k := eq_of_beq ha
      subst ha2
      simp only [List.map_cons, List.filter_cons]
      simp only [pyFalsy] at ih ⊢
      simp [hv]
      simpa using ih
    · have ha2 : ¬ a = k := fun h => ha (h ▸ beq_self_eq_true a)
      simp only [List.map_cons, List.filter_cons]
      simp only [pyFalsy] at ih ⊢
      simp [ha2]
      simpa using ih

theorem dictUpd_init_eq (keys : List String) (k v : String) (hk : k ∈ keys) :
    dictUpd (keys.map (fun f => (f, (none : Option String)))) k (some v) =
      keys.map (fun f => if f == k then (k, some v) else (f, none)) := by
  unfold dictUpd
  have hany : ((keys.map (fun f => (f, (none : Option String)))).any
      (fun p => p.1 == k)) = true := by
    exact List.any_eq_true.mpr ⟨(k, none), List.mem_map.mpr ⟨k, hk, rfl⟩, by simp⟩
  rw [if_pos hany, List.map_map]
  rfl

theorem anatDest_ne_empty (dp sub session : String) :
    ((anatDest dp sub session) == "") = false := by
  rw [beq_eq_false_iff_ne]
  intro h
  have hd := congrArg String.data h
  have : (anatDest dp sub session).data =
      dp.data ++ '/' :: (osJoin [sub, session, "anat",
        sub ++ "_" ++ session ++ "_" ++ "_acq-MPRAGE_T1w.nii"]).data := by
    show (dp ++ "/" ++ _).data = _
    simp [data_append]
  rw [this] at hd
  simp at hd

theorem finish_dictUpd_init (keys : List String) (hnd : keys.Nodup) (k v : String)
    (hk : k ∈ keys) (hv : (v == "") = false) (pf : List (String × String)) :
    finishMaps (dictUpd (keys.map (fun f => (f, none))) k (some v)) pf =
      ([(k, some v)],
       if keys.filter (fun f => !(f == k)) ≠ [] then
         dictUpd pf "Unmapped files"
           ("The following files were not moved and renamed: " ++
             pyStrList (keys.filter (fun f => !(f == k))))
       else pf) := by
  rw [dictUpd_init_eq keys k v hk]
  unfold finishMaps
  rw [selectMap_filter_falsy v k hv keys, selectMap_filter_isSome v k keys hnd hk]

/-- C4 (amended): in an ANATOMY folder, if some file's size exactly equals the
target, the last such file is mapped to the T1w destination and the only
possible ProblemRecord is the `Unmapped files` safety net; otherwise the
mapped file is the *last-listed file sharing the byte size of the first
minimizer* of the absolute difference (Python `min` keeps the first
minimizer, so a tie between a below-target and an above-target size resolves
to the earlier-listed size, not simply to the last-listed tied file), it does
minimize the absolute difference, and a closest-match ProblemRecord keyed by
its basename is emitted. -/
theorem C4_anatomy_selection (file_list splitroot : List String) (sub ses : String)
    (n_sessions : Nat) (destpath_abs : String) (sizes : String → Nat) (n : Nat)
    (best m : String)
    (hnd : file_list.Nodup)
    (hcat : splitroot.getLast? = some "ANATOMY")
    (hses : pyInt ses = some n) (hn : n ≤ n_sessions) :
    ((file_list.map (oldPath splitroot)).any (fun k => sizes k == right_size) = true →
      ((file_list.map (oldPath splitroot)).filter
          (fun k => sizes k == right_size)).getLast? = some best →
      sizes best = right_size ∧ best ∈ file_list.map (oldPath splitroot) ∧
      renameSize file_list splitroot sub ses n_sessions destpath_abs sizes =
        some ([(best, some (anatDest destpath_abs sub ("ses-" ++ ses)))],
          if (file_list.map (oldPath splitroot)).filter (fun f => !(f == best)) ≠ [] then
            [("Unmapped files", "The following files were not moved and renamed: " ++
              pyStrList
                ((file_list.map (oldPath splitroot)).filter (fun f => !(f == best))))]
          else [])) ∧
    ((file_list.map (oldPath splitroot)).any (fun k => sizes k == right_size) = false →
      pyMinBy (fun k => pyAbsSub right_size (sizes k))
          (file_list.map (oldPath splitroot)) = some m →
      ((file_list.map (oldPath splitroot)).filter
          (fun k => sizes k == sizes m)).getLast? = some best →
      m ∈ file_list.map (oldPath splitroot) ∧
      (∀ x ∈ file_list.map (oldPath splitroot),
        pyAbsSub right_size (sizes m) ≤ pyAbsSub right_size (sizes x)) ∧
      best ∈ file_list.map (oldPath splitroot) ∧ sizes best = sizes m ∧
      renameSize file_list splitroot sub ses n_sessions destpath_abs sizes =
        some ([(best, some (anatDest destpath_abs sub ("ses-" ++ ses)))],
          if (file_list.map (oldPath splitroot)).filter (fun f => !(f == best)) ≠ [] then
            dictUpd [(pyBasename best,
                "No mprage of expected size. Used closest match: " ++ pyBasename best)]
              "Unmapped files" ("The following files were not moved and renamed: " ++
                pyStrList
                  ((file_list.map (oldPath splitroot)).filter (fun f => !(f == best))))
          else [(pyBasename best,
            "No mprage of expected size. Used closest match: " ++ pyBasename best)])) := by
  have hops_nd : (file_list.map (oldPath splitroot)).Nodup :=
    hnd.map (oldPath_injective splitroot)
  have hkeys : pyDedup (file_list.map (oldPath splitroot)) =
      file_list.map (oldPath splitroot) := pyDedup_eq_self _ hops_nd
  constructor
  · intro hany hlast
    have hbm := List.mem_filter.mp (mem_of_getLast? hlast)
    refine ⟨by simpa using hbm.2, hbm.1, ?_⟩
    have hbr : anatomyBranch (file_list.map (oldPath splitroot)) sizes
        ((file_list.map (oldPath splitroot)).map (fun f => (f, none))) []
        destpath_abs sub ("ses-" ++ ses) =
        some (dictUpd ((file_list.map (oldPath splitroot)).map (fun f => (f, none)))
          best (some (anatDest destpath_abs sub ("ses-" ++ ses))), []) := by
      unfold anatomyBranch
      rw [if_pos hany, hlast]
    have hstep : renameSize file_list splitroot sub ses n_sessions destpath_abs sizes =
        some (finishMaps
          (dictUpd ((file_list.map (oldPath splitroot)).map (fun f => (f, none))) best
            (some (anatDest destpath_abs sub ("ses-" ++ ses)))) []) := by
      unfold renameSize
      rw [hses]
      simp only [hkeys]
      rw [if_pos hn, hcat]
      simp only [hbr, if_true]
    rw [hstep, finish_dictUpd_init (file_list.map (oldPath splitroot)) hops_nd best
      (anatDest destpath_abs sub ("ses-" ++ ses)) hbm.1 (anatDest_ne_empty _ _ _) []]
    by_cases hc : (file_list.map (oldPath splitroot)).filter (fun f => !(f == best)) ≠ []
    · simp [hc, dictUpd]
    · simp [hc]
  · intro hany hmin hlast
    obtain ⟨hm_mem, hm_le⟩ := pyMinBy_spec _ _ _ hmin
    have hbm := List.mem_filter.mp (mem_of_getLast? hlast)
    refine ⟨hm_mem, hm_le, hbm.1, by simpa using hbm.2, ?_⟩
    have hbr : anatomyBranch (file_list.map (oldPath splitroot)) sizes
        ((file_list.map (oldPath splitroot)).map (fun f => (f, none))) []
        destpath_abs sub ("ses-" ++ ses) =
        some (dictUpd ((file_list.map (oldPath splitroot)).map (fun f => (f, none)))
            best (some (anatDest destpath_abs sub ("ses-" ++ ses))),
          dictUpd [] (pyBasename best)
            ("No mprage of expected size. Used closest match: " ++ pyBasename best)) := by
      unfold anatomyBranch
      rw [hany]
      simp only [Bool.false_eq_true, if_false, hmin, hlast]
    have hstep : renameSize file_list splitroot sub ses n_sessions destpath_abs sizes =
        some (finishMaps
          (dictUpd ((file_list.map (oldPath splitroot)).map (fun f => (f, none))) best
            (some (anatDest destpath_abs sub ("ses-" ++ ses))))
          (dictUpd [] (pyBasename best)
            ("No mprage of expected size. Used closest match: " ++ pyBasename best))) := by
      unfold renameSize
      rw [hses]
      simp only [hkeys]
      rw [if_pos hn, hcat]
      simp only [hbr, if_true]
    have hpf0 : dictUpd ([] : List (String × String)) (pyBasename best)
        ("No mprage of expected size. Used closest match: " ++ pyBasename best) =
        [(pyBasename best,
          "No mprage of expected size. Used closest match: " ++ pyBasename best)] := rfl
    rw [hstep, hpf0, finish_dictUpd_init (file_list.map (oldPath splitroot)) hops_nd best
      (anatDest destpath_abs sub ("ses-" ++ ses)) hbm.1 (anatDest_ne_empty _ _ _)
      [(pyBasename best,
        "No mprage of expected size. Used closest match: " ++ pyBasename best)]]

/-- Witness for `C4_anatomy_selection`: an exact-size match among two files. -/
theorem C4_anatomy_selection_witness :
    renameSize ["a.nii", "b.nii"] ["", "data", "0001_1", "ANATOMY"] "sub-0001" "1" 2
        "/dest" (fun f => if f = "/data/0001_1/ANATOMY/a.nii" then 28836192 else 5) =
      some ([("/data/0001_1/ANATOMY/a.nii",
          some "/dest/sub-0001/ses-1/anat/sub-0001_ses-1__acq-MPRAGE_T1w.nii")],
        [("Unmapped files",
          "The following files were not moved and renamed: [\x27/data/0001_1/ANATOMY/b.nii\x27]")]) :=
  ((C4_anatomy_selection ["a.nii", "b.nii"] ["", "data", "0001_1", "ANATOMY"] "sub-0001"
      "1" 2 "/dest" (fun f => if f = "/data/0001_1/ANATOMY/a.nii" then 28836192 else 5) 1
      "/data/0001_1/ANATOMY/a.nii" "x" (by decide) rfl (by decide) (by decide)).1
    (by decide) (by decide)).2.2

theorem lexLe_total : ∀ as bs : List Char, lexLe as bs = true ∨ lexLe bs as = true := by
  intro as
  induction as with
  | nil => intro bs; left; rfl
  | cons a t ih =>
    intro bs
    cases bs with
    | nil => right; rfl
    | cons b u =>
      unfold lexLe
      by_cases h1 : a.toNat < b.toNat
      · left; simp [h1]
      · by_cases h2 : b.toNat < a.toNat
        · right; simp [h2]
        · rcases ih u with h | h
          · left; simp [h1, h2, h]
          · right; simp [h1, h2, h]

theorem lexLe_trans :
    ∀ as bs cs : List Char,
      lexLe as bs = true → lexLe bs cs = true → lexLe as cs = true := by
  intro as
  induction as with
  | nil => intro bs cs _ _; rfl
  | cons a t ih =>
    intro bs cs hab hbc
    cases bs with
    | nil => exact absurd hab (by simp [lexLe])
    | cons b u =>
      cases cs with
      | nil => exact absurd hbc (by simp [lexLe])
      | cons c w =>
        unfold lexLe at hab hbc ⊢
        by_cases h1 : a.toNat < b.toNat
        · by_cases h2 : b.toNat < c.toNat
          · simp [show a.toNat < c.toNat by omega]
          · by_cases h3 : c.toNat < b.toNat
            · simp [h2, h3] at hbc
            · simp [show a.toNat < c.toNat by omega]
        · by_cases h2 : b.toNat < a.toNat
          · simp [h1, h2] at hab
          · by_cases h3 : b.toNat < c.toNat
            · simp [show a.toNat < c.toNat by omega]
            · by_cases h4 : c.toNat < b.toNat
              · simp [h3, h4] at hbc
              · have h5 : ¬ a.toNat < c.toNat := by omega
                have h6 : ¬ c.toNat < a.toNat := by omega
                simp only [h1, h2, if_false] at hab
                simp only [h3, h4, if_false] at hbc
                simp [h5, h6, ih u w hab hbc]

theorem lexLe_antisymm :
    ∀ as bs : List Char, lexLe as bs = true → lexLe bs as = true → as = bs := by
  intro as
  induction as with
  | nil =>
    intro bs _ hba
    cases bs with
    | nil => rfl
    | cons b u => exact absurd hba (by simp [lexLe])
  | cons a t ih =>
    intro bs hab hba
    cases bs with
    | nil => exact absurd hab (by simp [lexLe])
    | cons b u =>
      unfold lexLe at hab hba
      by_cases h1 : a.toNat < b.toNat
      · have h2 : ¬ b.toNat < a.toNat := by omega
        simp [h1, h2] at hba
      · by_cases h2 : b.toNat < a.toNat
        · simp [h1, h2] at hab
        · have htn : a.toNat = b.toNat := by omega
          have hac : a = b := Char.ext (UInt32.ext htn)
          simp only [h1, h2, if_false] at hab hba
          rw [hac, ih u hab hba]

instance : IsTotal String (fun a b => pyStrLe a b = true) :=
  ⟨fun a b => lexLe_total a.data b.data⟩

instance : IsTrans String (fun a b => pyStrLe a b = true) :=
  ⟨fun a b c => lexLe_trans a.data b.data c.data⟩

instance : IsAntisymm String (fun a b => pyStrLe a b = true) :=
  ⟨fun a b hab hba => by
    have h := lexLe_antisymm a.data b.data hab hba
    cases a; cases b
    exact congrArg String.mk (by simpa using h)⟩

theorem mem_dictUpd_of_ne (m : List (String × Option String)) (k : String)
    (v : Option String) (e : String × Option String) (he : e ∈ m) (hne : e.1 ≠ k) :
    e ∈ dictUpd m k v := by
  unfold dictUpd
  split
  · refine List.mem_map.mpr ⟨e, he, ?_⟩
    have h : (e.1 == k) = false := by simpa using hne
    simp [h]
  · exact List.mem_append_left _ he

theorem mem_dictUpd_self (m : List (String × Option String)) (k : String)
    (v : Option String) : (k, v) ∈ dictUpd m k v := by
  unfold dictUpd
  split
  · next h =>
    obtain ⟨p, hp, hpk⟩ := List.any_eq_true.mp h
    refine List.mem_map.mpr ⟨p, hp, ?_⟩
    simp [hpk]
  · exact List.mem_append_right _ (List.mem_cons_self _ _)

theorem mem_finish_of_some (pm : List (String × Option String))
    (pf : List (String × String)) (k v : String)
    (he : (k, some v) ∈ pm) : (k, some v) ∈ (finishMaps pm pf).1 := by
  have h1 : (finishMaps pm pf).1 = pm.filter (fun p => p.2.isSome) := rfl
  rw [h1]
  exact List.mem_filter.mpr ⟨he, rfl⟩

theorem mcrStep_mem_preserve (mcrs : List String) (m : List (String × Option String))
    (p : List (String × String)) (dp sub session : String)
    (e : String × Option String) (he : e ∈ m) (hne : ∀ k ∈ mcrs, e.1 ≠ k) :
    e ∈ (mcrStep mcrs m p dp sub session).1 := by
  unfold mcrStep
  cases hg : mcrs.getLast? with
  | none => exact he
  | some k => exact mem_dictUpd_of_ne m k _ e he (hne k (mem_of_getLast? hg))

theorem swmStep_mem_preserve (swms : List String) (m : List (String × Option String))
    (p : List (String × String)) (dp sub session : String)
    (e : String × Option String) (he : e ∈ m) (hne : ∀ k ∈ swms, e.1 ≠ k) :
    e ∈ (swmStep swms m p dp sub session).1 := by
  unfold swmStep
  cases hg : swms.getLast? with
  | none => exact he
  | some k => exact mem_dictUpd_of_ne m k _ e he (hne k (mem_of_getLast? hg))

theorem ddStep_mem_preserve (leftovers : List String)
    (m : List (String × Option String)) (p : List (String × String))
    (dp sub session : String) (e : String × Option String) (he : e ∈ m)
    (hne : ∀ k ∈ leftovers, e.1 ≠ k) :
    e ∈ (ddStep leftovers m p dp sub session).1 := by
  unfold ddStep
  split
  · next hl =>
    have hmem : leftovers.headD "" ∈ leftovers := by
      cases leftovers with
      | nil => exact absurd hl (by simp)
      | cons x t => exact List.mem_cons_self x t
    exact mem_dictUpd_of_ne m _ _ e he (hne _ hmem)
  · exact he

theorem restsStep_rest2_mem (rests : List String) (m : List (String × Option String))
    (pf : List (String × String)) (dp sub session : String) (a b : String)
    (hab : rests = [a, b]) (hne : a ≠ b) :
    ((pySorted rests).headD "", some (restDest01 dp sub session)) ∈
      (restsStep rests m pf dp sub session).1 ∧
    (((pySorted rests).drop 1).headD "", some (restDest05 dp sub session)) ∈
      (restsStep rests m pf dp sub session).1 ∧
    (pySorted rests).headD "" ≠ ((pySorted rests).drop 1).headD "" ∧
    pyStrLe ((pySorted rests).headD "") (((pySorted rests).drop 1).headD "") = true ∧
    (pySorted rests).headD "" ∈ rests ∧
    ((pySorted rests).drop 1).headD "" ∈ rests := by
  subst hab
  have hsort : pySorted [a, b] = if pyStrLe a b = true then [a, b] else [b, a] := by
    simp [pySorted, List.insertionSort, List.orderedInsert]
  unfold restsStep
  by_cases hab_le : pyStrLe a b = true
  · simp only [hsort, hab_le, if_true]
    simp only [List.isEmpty_cons, List.length_cons, List.length_nil]
    refine ⟨?_, ?_, hne, hab_le, List.mem_cons_self a [b],
      List.mem_cons_of_mem a (List.mem_cons_self b [])⟩
    · exact mem_dictUpd_of_ne _ b _ _ (mem_dictUpd_self m a _) (by simpa using hne)
    · exact mem_dictUpd_self _ b _
  · have hba : pyStrLe b a = true := by
      rcases lexLe_total a.data b.data with h | h
      · exact absurd h hab_le
      · exact h
    simp only [hsort, hab_le, if_false]
    simp only [List.isEmpty_cons, List.length_cons, List.length_nil]
    refine ⟨?_, ?_, fun h => hne h.symm, hba,
      List.mem_cons_of_mem a (List.mem_cons_self b []), List.mem_cons_self a [b]⟩
    · exact mem_dictUpd_of_ne _ a _ _ (mem_dictUpd_self m b _)
        (by simpa using fun h => hne h.symm)
    · exact mem_dictUpd_self _ a _

theorem functionalBranch_mem (keys : List String) (sizes : String → Nat)
    (m : List (String × Option String)) (pf : List (String × String))
    (dp sub session : String) (e : String × Option String)
    (hstep1 : e ∈ (restsStep (keys.filter (fun f => restWindow (sizes f))) m pf
      dp sub session).1)
    (hrw : restWindow (sizes e.1) = true) :
    e ∈ (functionalBranch keys sizes m pf dp sub session).1 := by
  simp only [functionalBranch, functionalBuckets_eq]
  apply ddStep_mem_preserve
  · apply swmStep_mem_preserve
    · apply mcrStep_mem_preserve
      · exact hstep1
      · intro k hk
        have h := (List.mem_filter.mp hk).2
        intro hek
        rw [hek] at hrw
        simp [hrw] at h
    · intro k hk
      have h := (List.mem_filter.mp hk).2
      intro hek
      rw [hek] at hrw
      simp [hrw] at h
  · intro k hk
    have h := (List.mem_filter.mp hk).2
    intro hek
    rw [hek] at hrw
    simp [hrw] at h

/-- C8: with exactly two files in the resting-state window, the
lexicographically first (by code-point order on full old paths, Python
`sorted`) is mapped to `rest run-01` and the other to `rest run-05`, and the
assignment is identical for any permutation of the input file list. -/
theorem C8_rest_run_assignment (file_list file_list' splitroot : List String)
    (sub ses : String) (n_sessions : Nat) (destpath_abs : String)
    (sizes : String → Nat) (n : Nat) (pm pm' : List (String × Option String))
    (pf pf' : List (String × String))
    (hperm : file_list.Perm file_list')
    (hnd : file_list.Nodup)
    (hcat : splitroot.getLast? = some "FUNCTIONAL")
    (hses : pyInt ses = some n) (hn : n ≤ n_sessions)
    (hrest : ((file_list.map (oldPath splitroot)).filter
        (fun f => restWindow (sizes f))).length = 2)
    (hres : renameSize file_list splitroot sub ses n_sessions destpath_abs sizes =
      some (pm, pf))
    (hres' : renameSize file_list' splitroot sub ses n_sessions destpath_abs sizes =
      some (pm', pf')) :
    pyStrLe
      ((pySorted ((file_list.map (oldPath splitroot)).filter
        (fun f => restWindow (sizes f)))).headD "")
      (((pySorted ((file_list.map (oldPath splitroot)).filter
        (fun f => restWindow (sizes f)))).drop 1).headD "") = true ∧
    (pySorted ((file_list.map (oldPath splitroot)).filter
        (fun f => restWindow (sizes f)))).headD "" ≠
      ((pySorted ((file_list.map (oldPath splitroot)).filter
        (fun f => restWindow (sizes f)))).drop 1).headD "" ∧
    ((pySorted ((file_list.map (oldPath splitroot)).filter
        (fun f => restWindow (sizes f)))).headD "",
      some (restDest01 destpath_abs sub ("ses-" ++ ses))) ∈ pm ∧
    (((pySorted ((file_list.map (oldPath splitroot)).filter
        (fun f => restWindow (sizes f)))).drop 1).headD "",
      some (restDest05 destpath_abs sub ("ses-" ++ ses))) ∈ pm ∧
    ((pySorted ((file_list.map (oldPath splitroot)).filter
        (fun f => restWindow (sizes f)))).headD "",
      some (restDest01 destpath_abs sub ("ses-" ++ ses))) ∈ pm' ∧
    (((pySorted ((file_list.map (oldPath splitroot)).filter
        (fun f => restWindow (sizes f)))).drop 1).headD "",
      some (restDest05 destpath_abs sub ("ses-" ++ ses))) ∈ pm' := by
  have hops_nd : (file_list.map (oldPath splitroot)).Nodup :=
    hnd.map (oldPath_injective splitroot)
  have hkeys := pyDedup_eq_self _ hops_nd
  have hnd' : file_list'.Nodup := hperm.nodup_iff.mp hnd
  have hops_nd' : (file_list'.map (oldPath splitroot)).Nodup :=
    hnd'.map (oldPath_injective splitroot)
  have hkeys' := pyDedup_eq_self _ hops_nd'
  have hpermR : ((file_list.map (oldPath splitroot)).filter
      (fun f => restWindow (sizes f))).Perm
      ((file_list'.map (oldPath splitroot)).filter (fun f => restWindow (sizes f))) :=
    (hperm.map _).filter _
  have hrest' : ((file_list'.map (oldPath splitroot)).filter
      (fun f => restWindow (sizes f))).length = 2 := by
    rw [← hpermR.length_eq]
    exact hrest
  have hsorted_eq :
      pySorted ((file_list'.map (oldPath splitroot)).filter
        (fun f => restWindow (sizes f))) =
      pySorted ((file_list.map (oldPath splitroot)).filter
        (fun f => restWindow (sizes f))) := by
    refine List.eq_of_perm_of_sorted ?_ (List.sorted_insertionSort _ _)
      (List.sorted_insertionSort _ _)
    exact (List.perm_insertionSort _ _).trans
      (hpermR.symm.trans (List.perm_insertionSort _ _).symm)
  have hstep : renameSize file_list splitroot sub ses n_sessions destpath_abs sizes =
      some (finishMaps
        (functionalBranch (file_list.map (oldPath splitroot)) sizes
          ((file_list.map (oldPath splitroot)).map (fun f => (f, none))) []
          destpath_abs sub ("ses-" ++ ses)).1
        (functionalBranch (file_list.map (oldPath splitroot)) sizes
          ((file_list.map (oldPath splitroot)).map (fun f => (f, none))) []
          destpath_abs sub ("ses-" ++ ses)).2) := by
    unfold renameSize
    rw [hses]
    simp only [hkeys]
    rw [if_pos hn, hcat]
    rfl
  have hstep' : renameSize file_list' splitroot sub ses n_sessions destpath_abs sizes =
      some (finishMaps
        (functionalBranch (file_list'.map (oldPath splitroot)) sizes
          ((file_list'.map (oldPath splitroot)).map (fun f => (f, none))) []
          destpath_abs sub ("ses-" ++ ses)).1
        (functionalBranch (file_list'.map (oldPath splitroot)) sizes
          ((file_list'.map (oldPath splitroot)).map (fun f => (f, none))) []
          destpath_abs sub ("ses-" ++ ses)).2) := by
    unfold renameSize
    rw [hses]
    simp only [hkeys']
    rw [if_pos hn, hcat]
    rfl
  rw [hstep] at hres
  rw [hstep'] at hres'
  simp only [Option.some.injEq] at hres hres'
  have hpm : pm = (finishMaps
      (functionalBranch (file_list.map (oldPath splitroot)) sizes
        ((file_list.map (oldPath splitroot)).map (fun f => (f, none))) []
        destpath_abs sub ("ses-" ++ ses)).1
      (functionalBranch (file_list.map (oldPath splitroot)) sizes
        ((file_list.map (oldPath splitroot)).map (fun f => (f, none))) []
        destpath_abs sub ("ses-" ++ ses)).2).1 := by
    rw [hres]
  have hpm' : pm' = (finishMaps
      (functionalBranch (file_list'.map (oldPath splitroot)) sizes
        ((file_list'.map (oldPath splitroot)).map (fun f => (f, none))) []
        destpath_abs sub ("ses-" ++ ses)).1
      (functionalBranch (file_list'.map (oldPath splitroot)) sizes
        ((file_list'.map (oldPath splitroot)).map (fun f => (f, none))) []
        destpath_abs sub ("ses-" ++ ses)).2).1 := by
    rw [hres']
  obtain ⟨a, b, hab⟩ := List.length_eq_two.mp hrest
  have hrnd : ((file_list.map (oldPath splitroot)).filter
      (fun f => restWindow (sizes f))).Nodup := hops_nd.filter _
  have hne_ab : a ≠ b := by
    rw [hab] at hrnd
    exact fun h => (List.nodup_cons.mp hrnd).1 (by simp [h])
  obtain ⟨hm1, hm2, hne12, hle12, hr1mem, hr2mem⟩ :=
    restsStep_rest2_mem _ ((file_list.map (oldPath splitroot)).map (fun f => (f, none)))
      [] destpath_abs sub ("ses-" ++ ses) a b hab hne_ab
  have hw1 : restWindow (sizes ((pySorted ((file_list.map (oldPath splitroot)).filter
      (fun f => restWindow (sizes f)))).headD "")) = true :=
    (List.mem_filter.mp hr1mem).2
  have hw2 : restWindow (sizes (((pySorted ((file_list.map (oldPath splitroot)).filter
      (fun f => restWindow (sizes f)))).drop 1).headD "")) = true :=
    (List.mem_filter.mp hr2mem).2
  obtain ⟨a', b', hab'⟩ := List.length_eq_two.mp hrest'
  have hrnd' : ((file_list'.map (oldPath splitroot)).filter
      (fun f => restWindow (sizes f))).Nodup := hops_nd'.filter _
  have hne_ab' : a' ≠ b' := by
    rw [hab'] at hrnd'
    exact fun h => (List.nodup_cons.mp hrnd').1 (by simp [h])
  obtain ⟨hm1', hm2', _, _, hr1mem', hr2mem'⟩ :=
    restsStep_rest2_mem _ ((file_list'.map (oldPath splitroot)).map (fun f => (f, none)))
      [] destpath_abs sub ("ses-" ++ ses) a' b' hab' hne_ab'
  rw [hsorted_eq] at hm1' hm2' hr1mem' hr2mem'
  refine ⟨hle12, hne12, ?_, ?_, ?_, ?_⟩
  · rw [hpm]
    exact mem_finish_of_some _ _ _ _ (functionalBranch_mem _ _ _ _ _ _ _ _ hm1 hw1)
  · rw [hpm]
    exact mem_finish_of_some _ _ _ _ (functionalBranch_mem _ _ _ _ _ _ _ _ hm2 hw2)
  · rw [hpm']
    exact mem_finish_of_some _ _ _ _ (functionalBranch_mem _ _ _ _ _ _ _ _ hm1' hw1)
  · rw [hpm']
    exact mem_finish_of_some _ _ _ _ (functionalBranch_mem _ _ _ _ _ _ _ _ hm2' hw2)

/-- Witness for `C8_rest_run_assignment`: the two input orders of the same
two resting-state files receive identical run assignments. -/
theorem C8_rest_run_assignment_witness :
    pyStrLe
      ((pySorted (["r2.nii", "r1.nii"].map
        (oldPath ["", "data", "0001_1", "FUNCTIONAL"]) |>.filter
          (fun f => restWindow 110592352))).headD "")
      (((pySorted (["r2.nii", "r1.nii"].map
        (oldPath ["", "data", "0001_1", "FUNCTIONAL"]) |>.filter
          (fun f => restWindow 110592352))).drop 1).headD "") = true ∧
    (pySorted (["r2.nii", "r1.nii"].map
        (oldPath ["", "data", "0001_1", "FUNCTIONAL"]) |>.filter
          (fun f => restWindow 110592352))).headD "" ≠
      ((pySorted (["r2.nii", "r1.nii"].map
        (oldPath ["", "data", "0001_1", "FUNCTIONAL"]) |>.filter
          (fun f => restWindow 110592352))).drop 1).headD "" ∧
    ((pySorted (["r2.nii", "r1.nii"].map
        (oldPath ["", "data", "0001_1", "FUNCTIONAL"]) |>.filter
          (fun f => restWindow 110592352))).headD "",
      some (restDest01 "/dest" "sub-0001" ("ses-" ++ "1"))) ∈
      [("/data/0001_1/FUNCTIONAL/r2.nii",
        some "/dest/sub-0001/ses-1/func/sub-0001_task-rest_run-05_bold.nii"),
       ("/data/0001_1/FUNCTIONAL/r1.nii",
        some "/dest/sub-0001/ses-1/func/sub-0001_task-rest_run-01_bold.nii")] ∧
    (((pySorted (["r2.nii", "r1.nii"].map
        (oldPath ["", "data", "0001_1", "FUNCTIONAL"]) |>.filter
          (fun f => restWindow 110592352))).drop 1).headD "",
      some (restDest05 "/dest" "sub-0001" ("ses-" ++ "1"))) ∈
      [("/data/0001_1/FUNCTIONAL/r2.nii",
        some "/dest/sub-0001/ses-1/func/sub-0001_task-rest_run-05_bold.nii"),
       ("/data/0001_1/FUNCTIONAL/r1.nii",
        some "/dest/sub-0001/ses-1/func/sub-0001_task-rest_run-01_bold.nii")] ∧
    ((pySorted (["r2.nii", "r1.nii"].map
        (oldPath ["", "data", "0001_1", "FUNCTIONAL"]) |>.filter
          (fun f => restWindow 110592352))).headD "",
      some (restDest01 "/dest" "sub-0001" ("ses-" ++ "1"))) ∈
      [("/data/0001_1/FUNCTIONAL/r1.nii",
        some "/dest/sub-0001/ses-1/func/sub-0001_task-rest_run-01_bold.nii"),
       ("/data/0001_1/FUNCTIONAL/r2.nii",
        some "/dest/sub-0001/ses-1/func/sub-0001_task-rest_run-05_bold.nii")] ∧
    (((pySorted (["r2.nii", "r1.nii"].map
        (oldPath ["", "data", "0001_1", "FUNCTIONAL"]) |>.filter
          (fun f => restWindow 110592352))).drop 1).headD "",
      some (restDest05 "/dest" "sub-0001" ("ses-" ++ "1"))) ∈
      [("/data/0001_1/FUNCTIONAL/r1.nii",
        some "/dest/sub-0001/ses-1/func/sub-0001_task-rest_run-01_bold.nii"),
       ("/data/0001_1/FUNCTIONAL/r2.nii",
        some "/dest/sub-0001/ses-1/func/sub-0001_task-rest_run-05_bold.nii")] :=
  C8_rest_run_assignment ["r2.nii", "r1.nii"] ["r1.nii", "r2.nii"]
    ["", "data", "0001_1", "FUNCTIONAL"] "sub-0001" "1" 2 "/dest" (fun _ => 110592352) 1
    [("/data/0001_1/FUNCTIONAL/r2.nii",
      some "/dest/sub-0001/ses-1/func/sub-0001_task-rest_run-05_bold.nii"),
     ("/data/0001_1/FUNCTIONAL/r1.nii",
      some "/dest/sub-0001/ses-1/func/sub-0001_task-rest_run-01_bold.nii")]
    [("/data/0001_1/FUNCTIONAL/r1.nii",
      some "/dest/sub-0001/ses-1/func/sub-0001_task-rest_run-01_bold.nii"),
     ("/data/0001_1/FUNCTIONAL/r2.nii",
      some "/dest/sub-0001/ses-1/func/sub-0001_task-rest_run-05_bold.nii")]
    [("MCR", "No scan files matching expected size for MCR"),
     ("SWM", "No scan files matching expected size for SWM"),
     ("DD", "Unable to identify DD scan from choices: []")]
    [("MCR", "No scan files matching expected size for MCR"),
     ("SWM", "No scan files matching expected size for SWM"),
     ("DD", "Unable to identify DD scan from choices: []")]
    (by decide) (by decide) rfl (by decide) (by decide) (by decide) rfl rfl

theorem mem_dictUpd_cases (M : List (String × Option String)) (k : String)
    (v : Option String) (p : String × Option String) (hp : p ∈ dictUpd M k v) :
    p = (k, v) ∨ (p ∈ M ∧ p.1 ≠ k) := by
  unfold dictUpd at hp
  split at hp
  · rcases List.mem_map.mp hp with ⟨q, hq, hqe⟩
    by_cases hqk : (q.1 == k) = true
    · rw [if_pos hqk] at hqe
      exact Or.inl hqe.symm
    · rw [if_neg hqk] at hqe
      refine Or.inr ⟨hqe ▸ hq, ?_⟩
      rw [← hqe]
      simpa using hqk
  · next hany =>
    rcases List.mem_append.mp hp with h | h
    · refine Or.inr ⟨h, fun hk => ?_⟩
      exact hany (List.any_eq_true.mpr ⟨p, h, by simp [hk]⟩)
    · exact Or.inl (List.mem_singleton.mp h)

theorem keys_dictUpd_nodup (M : List (String × Option String)) (k : String)
    (v : Option String) (hnd : (M.map Prod.fst).Nodup) :
    ((dictUpd M k v).map Prod.fst).Nodup := by
  unfold dictUpd
  split
  · rw [List.map_map]
    have : ∀ p ∈ M, (Prod.fst ∘ fun p => if p.1 == k then (k, v) else p) p = p.1 := by
      intro p _
      by_cases hpk : (p.1 == k) = true
      · simp [hpk, eq_of_beq hpk]
      · have hpk2 : ¬ p.1 = k := by simpa using hpk
        simp [hpk2]
    rw [List.map_congr_left this]
    exact hnd
  · next hany =>
    rw [List.map_append]
    refine List.Nodup.append hnd (by simp) ?_
    intro x hx hxy
    simp only [List.map_cons, List.map_nil, List.mem_singleton] at hxy
    subst hxy
    rcases List.mem_map.mp hx with ⟨q, hq, hqx⟩
    exact hany (List.any_eq_true.mpr ⟨q, hq, by simp [hqx]⟩)

theorem mem_snd_mappedDests (M : List (String × Option String))
    (p : String × Option String) (hp : p ∈ M) (d : String) (hd : p.2 = some d) :
    d ∈ mappedDests M :=
  List.mem_filterMap.mpr ⟨p, hp, hd⟩

theorem good_dictUpd (M : List (String × Option String)) (k v : String)
    (hg : ∀ p ∈ M, ∀ q ∈ M, ∀ d : String, p.2 = some d → q.2 = some d → p.1 = q.1)
    (hfresh : ∀ p ∈ M, p.2 ≠ some v) :
    ∀ p ∈ dictUpd M k (some v), ∀ q ∈ dictUpd M k (some v), ∀ d : String,
      p.2 = some d → q.2 = some d → p.1 = q.1 := by
  intro p hp q hq d hpd hqd
  rcases mem_dictUpd_cases M k (some v) p hp with hpe | ⟨hpm, hpk⟩ <;>
    rcases mem_dictUpd_cases M k (some v) q hq with hqe | ⟨hqm, hqk⟩
  · rw [hpe, hqe]
  · rw [hpe] at hpd ⊢
    simp only at hpd
    exact absurd (hqd.trans hpd.symm) (hfresh q hqm)
  · rw [hqe] at hqd ⊢
    simp only at hqd
    exact absurd (hpd.trans hqd.symm) (hfresh p hpm)
  · exact hg p hpm q hqm d hpd hqd

theorem filterMap_snd_filter_isSome (M : List (String × Option String)) :
    ((M.filter (fun p => p.2.isSome)).filterMap (fun p => p.2)) =
      M.filterMap (fun p => p.2) := by
  induction M with
  | nil => rfl
  | cons p t ih =>
    cases hp : p.2 with
    | none => simp [List.filter_cons, List.filterMap_cons, hp, ih]
    | some d => simp [List.filter_cons, List.filterMap_cons, hp, ih]

theorem filterMap_snd_nodup (M : List (String × Option String))
    (hkeys : (M.map Prod.fst).Nodup)
    (hinj : ∀ p ∈ M, ∀ q ∈ M, ∀ d : String, p.2 = some d → q.2 = some d → p.1 = q.1) :
    (M.filterMap (fun p => p.2)).Nodup := by
  induction M with
  | nil => exact List.nodup_nil
  | cons p t ih =>
    have hkt : (t.map Prod.fst).Nodup := (List.nodup_cons.mp hkeys).2
    have hpt : p.1 ∉ t.map Prod.fst := (List.nodup_cons.mp hkeys).1
    cases hp2 : p.2 with
    | none =>
      rw [List.filterMap_cons_none hp2]
      exact ih hkt (fun a ha b hb d had hbd =>
        hinj a (List.mem_cons_of_mem p ha) b (List.mem_cons_of_mem p hb) d had hbd)
    | some d =>
      rw [List.filterMap_cons_some hp2]
      refine List.nodup_cons.mpr ⟨?_, ih hkt (fun a ha b hb e hae hbe =>
        hinj a (List.mem_cons_of_mem p ha) b (List.mem_cons_of_mem p hb) e hae hbe)⟩
      intro hd
      rcases List.mem_filterMap.mp hd with ⟨q, hq, hq2⟩
      have := hinj p (List.mem_cons_self p t) q (List.mem_cons_of_mem p hq) d hp2 hq2
      exact hpt (this ▸ List.mem_map.mpr ⟨q, hq, rfl⟩)

theorem osJoin5_inj_last (dp sub session c : String) {s1 s2 : String}
    (h : osJoin [dp, sub, session, c, s1] = osJoin [dp, sub, session, c, s2]) :
    s1 = s2 := by
  have h1 : dp ++ "/" ++ (sub ++ "/" ++ (session ++ "/" ++ (c ++ "/" ++ s1))) =
      dp ++ "/" ++ (sub ++ "/" ++ (session ++ "/" ++ (c ++ "/" ++ s2))) := h
  exact string_append_left_cancel (string_append_left_cancel
    (string_append_left_cancel (string_append_left_cancel h1)))

theorem funcDest_inj (dp sub session : String) {s1 s2 : String}
    (h : osJoin [dp, sub, session, "func", sub ++ s1] =
      osJoin [dp, sub, session, "func", sub ++ s2]) : s1 = s2 :=
  string_append_left_cancel (osJoin5_inj_last dp sub session "func" h)

theorem init_values_none (keys : List String) :
    ∀ p ∈ keys.map (fun f => (f, (none : Option String))), p.2 = none := by
  intro p hp
  rcases List.mem_map.mp hp with ⟨f, _, rfl⟩
  rfl

theorem init_keys_nodup (keys : List String) (hnd : keys.Nodup) :
    ((keys.map (fun f => (f, (none : Option String)))).map Prod.fst).Nodup := by
  have hcomp : (Prod.fst ∘ fun f : String => (f, (none : Option String))) = id := rfl
  rw [List.map_map, hcomp, List.map_id]
  exact hnd

theorem restsStep_facts (rests : List String) (m : List (String × Option String))
    (pf : List (String × String)) (dp sub session : String)
    (hkn : (m.map Prod.fst).Nodup) (hnone : ∀ p ∈ m, p.2 = none) :
    (((restsStep rests m pf dp sub session).1).map Prod.fst).Nodup ∧
    (∀ p ∈ (restsStep rests m pf dp sub session).1,
      ∀ q ∈ (restsStep rests m pf dp sub session).1,
      ∀ d : String, p.2 = some d → q.2 = some d → p.1 = q.1) ∧
    (∀ p ∈ (restsStep rests m pf dp sub session).1, ∀ d : String, p.2 = some d →
      d = restDest01 dp sub session ∨ d = restDest05 dp sub session) := by
  have hgood0 : ∀ p ∈ m, ∀ q ∈ m, ∀ d : String,
      p.2 = some d → q.2 = some d → p.1 = q.1 := by
    intro p hp q hq d hpd _
    exact absurd hpd (by simp [hnone p hp])
  have hne15 : restDest01 dp sub session ≠ restDest05 dp sub session :=
    fun h => absurd (funcDest_inj dp sub session h) (by decide)
  unfold restsStep
  split
  · exact ⟨hkn, hgood0, fun p hp d hd => absurd hd (by simp [hnone p hp])⟩
  · split
    · exact ⟨hkn, hgood0, fun p hp d hd => absurd hd (by simp [hnone p hp])⟩
    · split
      · -- two resting-state files: two updates
        have hkn1 := keys_dictUpd_nodup m ((pySorted rests).headD "")
          (some (restDest01 dp sub session)) hkn
        have hg1 := good_dictUpd m ((pySorted rests).headD "")
          (restDest01 dp sub session) hgood0
          (fun p hp => by simp [hnone p hp])
        have hv1 : ∀ p ∈ dictUpd m ((pySorted rests).headD "")
            (some (restDest01 dp sub session)), ∀ d : String, p.2 = some d →
            d = restDest01 dp sub session := by
          intro p hp d hd
          rcases mem_dictUpd_cases _ _ _ p hp with hpe | ⟨hpm, _⟩
          · rw [hpe] at hd
            exact (Option.some.injEq _ _ ▸ hd).symm
          · exact absurd hd (by simp [hnone p hpm])
        refine ⟨keys_dictUpd_nodup _ _ _ hkn1, ?_, ?_⟩
        · apply good_dictUpd _ _ _ hg1
          intro p hp hpv
          exact hne15 ((hv1 p hp _ hpv).symm)
        · intro p hp d hd
          rcases mem_dictUpd_cases _ _ _ p hp with hpe | ⟨hpm, _⟩
          · rw [hpe] at hd
            exact Or.inr (Option.some.injEq _ _ ▸ hd).symm
          · exact Or.inl (hv1 p hpm d hd)
      · exact ⟨hkn, hgood0, fun p hp d hd => absurd hd (by simp [hnone p hp])⟩

theorem mcrStep_facts (mcrs : List String) (m : List (String × Option String))
    (pf : List (String × String)) (dp sub session : String) (S : List String)
    (hkn : (m.map Prod.fst).Nodup)
    (hgood : ∀ p ∈ m, ∀ q ∈ m, ∀ d : String, p.2 = some d → q.2 = some d → p.1 = q.1)
    (hS : ∀ p ∈ m, ∀ d : String, p.2 = some d → d ∈ S)
    (hfresh : mcrDest dp sub session ∉ S) :
    (((mcrStep mcrs m pf dp sub session).1).map Prod.fst).Nodup ∧
    (∀ p ∈ (mcrStep mcrs m pf dp sub session).1,
      ∀ q ∈ (mcrStep mcrs m pf dp sub session).1,
      ∀ d : String, p.2 = some d → q.2 = some d → p.1 = q.1) ∧
    (∀ p ∈ (mcrStep mcrs m pf dp sub session).1, ∀ d : String, p.2 = some d →
      d ∈ mcrDest dp sub session :: S) := by
  unfold mcrStep
  cases hg : mcrs.getLast? with
  | none =>
    exact ⟨hkn, hgood, fun p hp d hd => List.mem_cons_of_mem _ (hS p hp d hd)⟩
  | some k =>
    refine ⟨keys_dictUpd_nodup _ _ _ hkn, ?_, ?_⟩
    · apply good_dictUpd _ _ _ hgood
      intro p hp hpv
      exact hfresh (hS p hp _ hpv)
    · intro p hp d hd
      rcases mem_dictUpd_cases _ _ _ p hp with hpe | ⟨hpm, _⟩
      · rw [hpe] at hd
        have hdd : d = mcrDest dp sub session := by simpa using hd.symm
        rw [hdd]
        exact List.mem_cons_self _ _
      · exact List.mem_cons_of_mem _ (hS p hpm d hd)

theorem swmStep_facts (swms : List String) (m : List (String × Option String))
    (pf : List (String × String)) (dp sub session : String) (S : List String)
    (hkn : (m.map Prod.fst).Nodup)
    (hgood : ∀ p ∈ m, ∀ q ∈ m, ∀ d : String, p.2 = some d → q.2 = some d → p.1 = q.1)
    (hS : ∀ p ∈ m, ∀ d : String, p.2 = some d → d ∈ S)
    (hfresh : swmDest dp sub session ∉ S) :
    (((swmStep swms m pf dp sub session).1).map Prod.fst).Nodup ∧
    (∀ p ∈ (swmStep swms m pf dp sub session).1,
      ∀ q ∈ (swmStep swms m pf dp sub session).1,
      ∀ d : String, p.2 = some d → q.2 = some d → p.1 = q.1) ∧
    (∀ p ∈ (swmStep swms m pf dp sub session).1, ∀ d : String, p.2 = some d →
      d ∈ swmDest dp sub session :: S) := by
  unfold swmStep
  cases hg : swms.getLast? with
  | none =>
    exact ⟨hkn, hgood, fun p hp d hd => List.mem_cons_of_mem _ (hS p hp d hd)⟩
  | some k =>
    refine ⟨keys_dictUpd_nodup _ _ _ hkn, ?_, ?_⟩
    · apply good_dictUpd _ _ _ hgood
      intro p hp hpv
      exact hfresh (hS p hp _ hpv)
    · intro p hp d hd
      rcases mem_dictUpd_cases _ _ _ p hp with hpe | ⟨hpm, _⟩
      · rw [hpe] at hd
        have hdd : d = swmDest dp sub session := by simpa using hd.symm
        rw [hdd]
        exact List.mem_cons_self _ _
      · exact List.mem_cons_of_mem _ (hS p hpm d hd)

theorem ddStep_facts (leftovers : List String) (m : List (String × Option String))
    (pf : List (String × String)) (dp sub session : String) (S : List String)
    (hkn : (m.map Prod.fst).Nodup)
    (hgood : ∀ p ∈ m, ∀ q ∈ m, ∀ d : String, p.2 = some d → q.2 = some d → p.1 = q.1)
    (hS : ∀ p ∈ m, ∀ d : String, p.2 = some d → d ∈ S)
    (hfresh : ddDest dp sub session ∉ S) :
    (((ddStep leftovers m pf dp sub session).1).map Prod.fst).Nodup ∧
    (∀ p ∈ (ddStep leftovers m pf dp sub session).1,
      ∀ q ∈ (ddStep leftovers m pf dp sub session).1,
      ∀ d : String, p.2 = some d → q.2 = some d → p.1 = q.1) := by
  unfold ddStep
  split
  · refine ⟨keys_dictUpd_nodup _ _ _ hkn, ?_⟩
    apply good_dictUpd _ _ _ hgood
    intro p hp hpv
    exact hfresh (hS p hp _ hpv)
  · exact ⟨hkn, hgood⟩

theorem functionalBranch_filterMap_nodup (keys : List String) (sizes : String → Nat)
    (dp sub session : String) (hnd : keys.Nodup) :
    (((functionalBranch keys sizes (keys.map (fun f => (f, none))) [] dp sub
      session).1).filterMap (fun p => p.2)).Nodup := by
  have hne_m1 : mcrDest dp sub session ≠ restDest01 dp sub session :=
    fun h => absurd (funcDest_inj dp sub session h) (by decide)
  have hne_m5 : mcrDest dp sub session ≠ restDest05 dp sub session :=
    fun h => absurd (funcDest_inj dp sub session h) (by decide)
  have hne_s1 : swmDest dp sub session ≠ restDest01 dp sub session :=
    fun h => absurd (funcDest_inj dp sub session h) (by decide)
  have hne_s5 : swmDest dp sub session ≠ restDest05 dp sub session :=
    fun h => absurd (funcDest_inj dp sub session h) (by decide)
  have hne_sm : swmDest dp sub session ≠ mcrDest dp sub session :=
    fun h => absurd (funcDest_inj dp sub session h) (by decide)
  have hne_d1 : ddDest dp sub session ≠ restDest01 dp sub session :=
    fun h => absurd (funcDest_inj dp sub session h) (by decide)
  have hne_d5 : ddDest dp sub session ≠ restDest05 dp sub session :=
    fun h => absurd (funcDest_inj dp sub session h) (by decide)
  have hne_dm : ddDest dp sub session ≠ mcrDest dp sub session :=
    fun h => absurd (funcDest_inj dp sub session h) (by decide)
  have hne_ds : ddDest dp sub session ≠ swmDest dp sub session :=
    fun h => absurd (funcDest_inj dp sub session h) (by decide)
  simp only [functionalBranch]
  obtain ⟨hkn1, hg1, hv1⟩ := restsStep_facts (functionalBuckets keys sizes).1
    (keys.map (fun f => (f, none))) [] dp sub session (init_keys_nodup keys hnd)
    (init_values_none keys)
  obtain ⟨hkn2, hg2, hv2⟩ := mcrStep_facts (functionalBuckets keys sizes).2.1 _ _
    dp sub session [restDest01 dp sub session, restDest05 dp sub session] hkn1 hg1
    (fun p hp d hd => by rcases hv1 p hp d hd with h | h <;> simp [h])
    (by simp [hne_m1, hne_m5])
  obtain ⟨hkn3, hg3, hv3⟩ := swmStep_facts (functionalBuckets keys sizes).2.2.1 _ _
    dp sub session
    (mcrDest dp sub session :: [restDest01 dp sub session, restDest05 dp sub session])
    hkn2 hg2 hv2 (by simp [hne_s1, hne_s5, hne_sm])
  obtain ⟨hkn4, hg4⟩ := ddStep_facts (functionalBuckets keys sizes).2.2.2 _ _
    dp sub session
    (swmDest dp sub session :: mcrDest dp sub session ::
      [restDest01 dp sub session, restDest05 dp sub session])
    hkn3 hg3 hv3 (by simp [hne_d1, hne_d5, hne_dm, hne_ds])
  exact filterMap_snd_nodup _ hkn4 hg4

theorem logBranch_own (dp sub session : String) :
    ∀ (l : List String) (M : List (String × Option String)),
      (∀ p ∈ M, ∀ d : String, p.2 = some d →
        d = logDest dp sub session (pyBasename p.1)) →
      ∀ p ∈ logBranch l M dp sub session, ∀ d : String, p.2 = some d →
        d = logDest dp sub session (pyBasename p.1) := by
  intro l
  induction l with
  | nil => intro M hM; exact hM
  | cons a t ih =>
    intro M hM
    unfold logBranch at ih ⊢
    rw [List.foldl_cons]
    apply ih
    intro p hp d hd
    rcases mem_dictUpd_cases _ _ _ p hp with hpe | ⟨hpm, _⟩
    · rw [hpe] at hd ⊢
      simpa using hd.symm
    · exact hM p hpm d hd

theorem logBranch_keys_nodup (dp sub session : String) :
    ∀ (l : List String) (M : List (String × Option String)),
      (M.map Prod.fst).Nodup → ((logBranch l M dp sub session).map Prod.fst).Nodup := by
  intro l
  induction l with
  | nil => intro M h; exact h
  | cons a t ih =>
    intro M h
    unfold logBranch at ih ⊢
    rw [List.foldl_cons]
    exact ih _ (keys_dictUpd_nodup _ _ _ h)

theorem keys_dictUpd_sub (M : List (String × Option String)) (k : String)
    (v : Option String) (x : String)
    (hx : x ∈ (dictUpd M k v).map Prod.fst) : x ∈ M.map Prod.fst ∨ x = k := by
  rcases List.mem_map.mp hx with ⟨q, hq, hqx⟩
  rcases mem_dictUpd_cases _ _ _ q hq with hqe | ⟨hqm, _⟩
  · right; rw [← hqx, hqe]
  · left; exact List.mem_map.mpr ⟨q, hqm, hqx⟩

theorem logBranch_keys_origin (dp sub session : String) :
    ∀ (l : List String) (M : List (String × Option String)) (x : String),
      x ∈ (logBranch l M dp sub session).map Prod.fst →
      x ∈ M.map Prod.fst ∨ x ∈ l := by
  intro l
  induction l with
  | nil => intro M x h; exact Or.inl h
  | cons a t ih =>
    intro M x h
    unfold logBranch at ih h
    rw [List.foldl_cons] at h
    rcases ih _ x h with h' | h'
    · rcases keys_dictUpd_sub _ _ _ x h' with h'' | h''
      · exact Or.inl h''
      · exact Or.inr (h'' ▸ List.mem_cons_self a t)
    · exact Or.inr (List.mem_cons_of_mem a h')

/-- C9: within one classification pass, all assigned destinations are pairwise
distinct — the filtered path mapping never sends two source files of the same
folder to the same destination. -/
theorem C9_distinct_destinations (file_list splitroot : List String) (sub ses : String)
    (n_sessions : Nat) (destpath_abs : String) (sizes : String → Nat)
    (pm : List (String × Option String)) (pf : List (String × String))
    (hnd : file_list.Nodup)
    (hslash : ∀ f ∈ file_list, ∀ c ∈ f.data, (c == '/') = false)
    (hres : renameSize file_list splitroot sub ses n_sessions destpath_abs sizes =
      some (pm, pf)) :
    (pm.filterMap (fun p => p.2)).Nodup := by
  have hops_nd : (file_list.map (oldPath splitroot)).Nodup :=
    hnd.map (oldPath_injective splitroot)
  have hkeys : pyDedup (file_list.map (oldPath splitroot)) =
      file_list.map (oldPath splitroot) := pyDedup_eq_self _ hops_nd
  unfold renameSize at hres
  split at hres
  · exact absurd hres (by simp)
  · next n hn =>
    split at hres
    · split at hres
      · exact absurd hres (by simp)
      · next cat hcat =>
        simp only [hkeys] at hres
        split at hres
        · -- ANATOMY
          split at hres
          · exact absurd hres (by simp)
          · next pmpf hana =>
            simp only [Option.some.injEq] at hres
            have hpm : pm = (finishMaps pmpf.1 pmpf.2).1 := by rw [hres]
            have hpm1 : (finishMaps pmpf.1 pmpf.2).1 =
                pmpf.1.filter (fun p => p.2.isSome) := rfl
            rw [hpm, hpm1, filterMap_snd_filter_isSome]
            unfold anatomyBranch at hana
            split at hana
            · split at hana
              · exact absurd hana (by simp)
              · next best hlast =>
                simp only [Option.some.injEq] at hana
                rw [← hana]
                apply filterMap_snd_nodup
                · exact keys_dictUpd_nodup _ _ _ (init_keys_nodup _ hops_nd)
                · apply good_dictUpd
                  · intro p hp q hq d hpd _
                    exact absurd hpd (by simp [init_values_none _ p hp])
                  · intro p hp
                    simp [init_values_none _ p hp]
            · split at hana
              · exact absurd hana (by simp)
              · next closest hmin =>
                split at hana
                · exact absurd hana (by simp)
                · next best hlast =>
                  simp only [Option.some.injEq] at hana
                  rw [← hana]
                  apply filterMap_snd_nodup
                  · exact keys_dictUpd_nodup _ _ _ (init_keys_nodup _ hops_nd)
                  · apply good_dictUpd
                    · intro p hp q hq d hpd _
                      exact absurd hpd (by simp [init_values_none _ p hp])
                    · intro p hp
                      simp [init_values_none _ p hp]
        · split at hres
          · -- FUNCTIONAL
            simp only [Option.some.injEq] at hres
            have hpm : pm = (finishMaps
                (functionalBranch (file_list.map (oldPath splitroot)) sizes
                  ((file_list.map (oldPath splitroot)).map (fun f => (f, none))) []
                  destpath_abs sub ("ses-" ++ ses)).1
                (functionalBranch (file_list.map (oldPath splitroot)) sizes
                  ((file_list.map (oldPath splitroot)).map (fun f => (f, none))) []
                  destpath_abs sub ("ses-" ++ ses)).2).1 := by rw [hres]
            have hpm1 : (finishMaps
                (functionalBranch (file_list.map (oldPath splitroot)) sizes
                  ((file_list.map (oldPath splitroot)).map (fun f => (f, none))) []
                  destpath_abs sub ("ses-" ++ ses)).1
                (functionalBranch (file_list.map (oldPath splitroot)) sizes
                  ((file_list.map (oldPath splitroot)).map (fun f => (f, none))) []
                  destpath_abs sub ("ses-" ++ ses)).2).1 =
                ((functionalBranch (file_list.map (oldPath splitroot)) sizes
                  ((file_list.map (oldPath splitroot)).map (fun f => (f, none))) []
                  destpath_abs sub ("ses-" ++ ses)).1).filter
                    (fun p => p.2.isSome) := rfl
            rw [hpm, hpm1, filterMap_snd_filter_isSome]
            exact functionalBranch_filterMap_nodup _ sizes _ _ _ hops_nd
          · split at hres
            · -- LOG
              simp only [Option.some.injEq] at hres
              have hpm : pm = (finishMaps
                  (logBranch (file_list.map (oldPath splitroot))
                    ((file_list.map (oldPath splitroot)).map (fun f => (f, none)))
                    destpath_abs sub ("ses-" ++ ses)) []).1 := by rw [hres]
              have hpm1 : (finishMaps
                  (logBranch (file_list.map (oldPath splitroot))
                    ((file_list.map (oldPath splitroot)).map (fun f => (f, none)))
                    destpath_abs sub ("ses-" ++ ses)) []).1 =
                  (logBranch (file_list.map (oldPath splitroot))
                    ((file_list.map (oldPath splitroot)).map (fun f => (f, none)))
                    destpath_abs sub ("ses-" ++ ses)).filter
                      (fun p => p.2.isSome) := rfl
              rw [hpm, hpm1, filterMap_snd_filter_isSome]
              apply filterMap_snd_nodup
              · exact logBranch_keys_nodup _ _ _ _ _ (init_keys_nodup _ hops_nd)
              · intro p hp q hq d hpd hqd
                have hown := logBranch_own destpath_abs sub ("ses-" ++ ses)
                  (file_list.map (oldPath splitroot))
                  ((file_list.map (oldPath splitroot)).map (fun f => (f, none)))
                  (fun p hp d hd => absurd hd (by simp [init_values_none _ p hp]))
                have hdp := hown p hp d hpd
                have hdq := hown q hq d hqd
                have heqd : logDest destpath_abs sub ("ses-" ++ ses) (pyBasename p.1) =
                    logDest destpath_abs sub ("ses-" ++ ses) (pyBasename q.1) := by
                  rw [← hdp, ← hdq]
                have hbase : pyBasename p.1 = pyBasename q.1 :=
                  osJoin5_inj_last destpath_abs sub ("ses-" ++ ses) "log" heqd
                have horigin : ∀ r : String × Option String,
                    r ∈ logBranch (file_list.map (oldPath splitroot))
                      ((file_list.map (oldPath splitroot)).map (fun f => (f, none)))
                      destpath_abs sub ("ses-" ++ ses) →
                    ∃ f ∈ file_list, r.1 = oldPath splitroot f := by
                  intro r hr
                  have hk : r.1 ∈ (logBranch (file_list.map (oldPath splitroot))
                      ((file_list.map (oldPath splitroot)).map (fun f => (f, none)))
                      destpath_abs sub ("ses-" ++ ses)).map Prod.fst :=
                    List.mem_map.mpr ⟨r, hr, rfl⟩
                  have hx : r.1 ∈ List.map (oldPath splitroot) file_list := by
                    rcases logBranch_keys_origin _ _ _ _ _ _ hk with h | h
                    · rw [List.map_map] at h
                      simpa using h
                    · exact h
                  rcases List.mem_map.mp hx with ⟨f, hf, hfx⟩
                  exact ⟨f, hf, hfx.symm⟩
                obtain ⟨fp, hfp, hfpe⟩ := horigin p hp
                obtain ⟨fq, hfq, hfqe⟩ := horigin q hq
                rw [hfpe, hfqe]
                rw [hfpe, pyBasename_oldPath splitroot fp (hslash fp hfp)] at hbase
                rw [hfqe, pyBasename_oldPath splitroot fq (hslash fq hfq)] at hbase
                rw [hbase]
            · -- unrecognized folder
              simp only [Option.some.injEq, Prod.mk.injEq] at hres
              obtain ⟨h1, _⟩ := hres
              rw [← h1]
              have : (((file_list.map (oldPath splitroot)).map
                  (fun f => (f, (none : Option String)))).filterMap (fun p => p.2)) = [] :=
                mappedDests_init _
              rw [this]
              exact List.nodup_nil
    · -- session out of range
      simp only [Option.some.injEq, Prod.mk.injEq] at hres
      obtain ⟨h1, _⟩ := hres
      rw [← h1, hkeys]
      have : (((file_list.map (oldPath splitroot)).map
          (fun f => (f, (none : Option String)))).filterMap (fun p => p.2)) = [] :=
        mappedDests_init _
      rw [this]
      exact List.nodup_nil

/-- Witness for `C9_distinct_destinations`: a full functional folder. -/
theorem C9_distinct_destinations_witness :
    (([("/data/0001_1/FUNCTIONAL/r2.nii",
        some "/dest/sub-0001/ses-1/func/sub-0001_task-rest_run-05_bold.nii"),
       ("/data/0001_1/FUNCTIONAL/r1.nii",
        some "/dest/sub-0001/ses-1/func/sub-0001_task-rest_run-01_bold.nii"),
       ("/data/0001_1/FUNCTIONAL/m.nii",
        some "/dest/sub-0001/ses-1/func/sub-0001_task-mcr_run-02_bold.nii"),
       ("/data/0001_1/FUNCTIONAL/s.nii",
        some "/dest/sub-0001/ses-1/func/sub-0001_task-swm_run-03_bold.nii"),
       ("/data/0001_1/FUNCTIONAL/x.nii",
        some "/dest/sub-0001/ses-1/func/sub-0001_task-dd_run-04_bold.nii")] :
      List (String × Option String)).filterMap (fun p => p.2)).Nodup :=
  C9_distinct_destinations ["r2.nii", "r1.nii", "m.nii", "s.nii", "x.nii"]
    ["", "data", "0001_1", "FUNCTIONAL"] "sub-0001" "1" 2 "/dest"
    (fun f => if f = "/data/0001_1/FUNCTIONAL/r1.nii" then 110590352
      else if f = "/data/0001_1/FUNCTIONAL/r2.nii" then 110594351
      else if f = "/data/0001_1/FUNCTIONAL/m.nii" then 77412752
      else if f = "/data/0001_1/FUNCTIONAL/s.nii" then 82942352 else 7)
    [("/data/0001_1/FUNCTIONAL/r2.nii",
      some "/dest/sub-0001/ses-1/func/sub-0001_task-rest_run-05_bold.nii"),
     ("/data/0001_1/FUNCTIONAL/r1.nii",
      some "/dest/sub-0001/ses-1/func/sub-0001_task-rest_run-01_bold.nii"),
     ("/data/0001_1/FUNCTIONAL/m.nii",
      some "/dest/sub-0001/ses-1/func/sub-0001_task-mcr_run-02_bold.nii"),
     ("/data/0001_1/FUNCTIONAL/s.nii",
      some "/dest/sub-0001/ses-1/func/sub-0001_task-swm_run-03_bold.nii"),
     ("/data/0001_1/FUNCTIONAL/x.nii",
      some "/dest/sub-0001/ses-1/func/sub-0001_task-dd_run-04_bold.nii")] []
    (by decide) (by decide) rfl

/-- C6: for a session string obtained by zero-stripping a folder-name suffix,
a successful parse always yields `k ≥ 1`, so the code's check `k ≤ n_sessions`
accepts exactly when `1 ≤ k ≤ n_sessions`; and for every parsed session
number outside that range, `_rename_size` returns the ProblemRecord labeled
`"Session ?"` with message `"Unrecognized session number: <raw>"` and maps no
files from the folder (all destinations still `none`). -/
theorem C6_session_bound (file_list splitroot : List String) (sub : String)
    (suffix : String) (n_sessions : Nat) (destpath_abs : String)
    (sizes : String → Nat) (k : Nat)
    (hk : pyInt (lstrip0 suffix) = some k) :
    1 ≤ k ∧ ((k ≤ n_sessions) ↔ (1 ≤ k ∧ k ≤ n_sessions)) ∧
    (¬ k ≤ n_sessions →
      renameSize file_list splitroot sub (lstrip0 suffix) n_sessions destpath_abs
          sizes =
        some ((pyDedup (file_list.map (oldPath splitroot))).map (fun f => (f, none)),
          [("Session ?", "Unrecognized session number: " ++ lstrip0 suffix)]) ∧
      mappedDests
        ((pyDedup (file_list.map (oldPath splitroot))).map (fun f => (f, none))) = []) := by
  have hpos := lstrip0_pyInt_pos suffix hk
  refine ⟨hpos, by omega, fun hn => ⟨?_, mappedDests_init _⟩⟩
  unfold renameSize
  rw [hk]
  simp [hn, dictUpd]

/-- Witness for `C6_session_bound`: suffix `"03"`, two configured sessions. -/
theorem C6_session_bound_witness :
    renameSize ["scan.nii"] ["", "data", "0001_03", "ANATOMY"] "sub-0001"
        (lstrip0 "03") 2 "/dest" (fun _ => 1) =
      some ([("/data/0001_03/ANATOMY/scan.nii", none)],
        [("Session ?", "Unrecognized session number: 3")]) :=
  ((C6_session_bound ["scan.nii"] ["", "data", "0001_03", "ANATOMY"] "sub-0001" "03" 2
      "/dest" (fun _ => 1) 3 (by decide)).2.2 (by decide)).1

/-- C10: for the syntactically well-formed folder name `"0001_000"` whose
session suffix is all zeros, stripping leading zeros leaves the empty string,
`int('')` raises (modelled by `none`), and both the classification step and
the whole per-folder driver step abort instead of recording a ProblemRecord:
the classification step is not total over well-formed
`<subjectID>_<sessionNumber>` folder names. -/
theorem C10_allzero_session_aborts :
    parseSubSes "0001_000" = some ("sub-0001", "") ∧
    pyInt "" = none ∧
    renameSize ["scan.nii"] ["", "data", "0001_000", "ANATOMY"] "sub-0001" "" 2 "/dest"
      (fun _ => 1) = none ∧
    bidsifyStep 2 "/dest" [] ["", "data", "0001_000", "ANATOMY"] ["scan.nii"]
      (fun _ => 1) = none := by
  refine ⟨rfl, rfl, rfl, rfl⟩

/-- C2 (code bug): when classification exits early — session number out of
range, or unrecognized category folder — `_rename_size` returns the
*unfiltered* path mapping, every destination still `None`; the `bidsify` copy
loop then calls `shutil.copy` with a `None` destination (a `TypeError`,
modelled by `none`), aborting the run instead of skipping the folder. -/
theorem C2_early_exit_unfiltered :
    renameSize ["scan.nii"] ["", "data", "0001_3", "ANATOMY"] "sub-0001" "3" 2 "/dest"
        (fun _ => 1) =
      some ([("/data/0001_3/ANATOMY/scan.nii", none)],
        [("Session ?", "Unrecognized session number: 3")]) ∧
    copyFiles [("/data/0001_3/ANATOMY/scan.nii", none)] = none ∧
    bidsifyStep 2 "/dest" [] ["", "data", "0001_3", "ANATOMY"] ["scan.nii"]
      (fun _ => 1) = none ∧
    renameSize ["z.nii"] ["", "data", "0001_1", "WEIRD"] "sub-0001" "1" 2 "/dest"
        (fun _ => 9) =
      some ([("/data/0001_1/WEIRD/z.nii", none)],
        [("", "unrecognized scan or log folder: WEIRD")]) := by
  refine ⟨rfl, rfl, rfl, rfl⟩

/-- C1 (counterexample): the same subject and session visited twice — first
recording label `"A"`, then label `"B"` — ends with the session's whole
problem dict replaced by the second visit's records: the earlier entry under
label `"A"` is *not* preserved, contrary to the claim. -/
theorem C1_counterexample :
    recordProblems (recordProblems [] "sub-0001" "1" [("A", "m1")]) "sub-0001" "1"
        [("B", "m2")] =
      [("sub-0001", [("1", [("B", "m2")])])] ∧
    labelMsg
      (recordProblems (recordProblems [] "sub-0001" "1" [("A", "m1")]) "sub-0001" "1"
        [("B", "m2")])
      "sub-0001" "1" "A" = none := by
  refine ⟨rfl, rfl⟩

/-- C1 (amended): when the same (subject, session) pair is visited twice, the
later visit's problem dict replaces the *entire* stored dict for that pair:
afterwards the collector holds exactly the second visit's records, and every
label absent from the second visit — including all labels recorded only by the
first visit — is gone. -/
theorem C1_last_visit_replaces_session (sub ses : String)
    (p1 p2 : List (String × String)) (h1 : p1 ≠ []) (h2 : p2 ≠ []) :
    sesProbs (recordProblems (recordProblems [] sub ses p1) sub ses p2) sub ses =
      some p2 ∧
    ∀ lab, p2.lookup lab = none →
      labelMsg (recordProblems (recordProblems [] sub ses p1) sub ses p2)
        sub ses lab = none := by
  obtain ⟨a, as, rfl⟩ : ∃ a as, p1 = a :: as := by
    cases p1 with
    | nil => exact absurd rfl h1
    | cons a as => exact ⟨a, as, rfl⟩
  obtain ⟨b, bs, rfl⟩ : ∃ b bs, p2 = b :: bs := by
    cases p2 with
    | nil => exact absurd rfl h2
    | cons b bs => exact ⟨b, bs, rfl⟩
  have hmain :
      sesProbs (recordProblems (recordProblems [] sub ses (a :: as)) sub ses (b :: bs))
        sub ses = some (b :: bs) := by
    simp [recordProblems, dictUpd, sesProbs, List.lookup]
  refine ⟨hmain, fun lab hlab => ?_⟩
  simp [labelMsg, hmain, hlab]

/-- Witness for `C1_last_visit_replaces_session` at concrete records. -/
theorem C1_last_visit_replaces_session_witness :
    sesProbs
      (recordProblems (recordProblems [] "sub-0001" "1" [("A", "m1")]) "sub-0001" "1"
        [("B", "m2")])
      "sub-0001" "1" = some [("B", "m2")] :=
  (C1_last_visit_replaces_session "sub-0001" "1" [("A", "m1")] [("B", "m2")]
    (by decide) (by decide)).1

/-- C3 (counterexample): a mapped functional file's destination basename is
`sub-<ID>_task-rest_run-01_bold.nii`: it contains no `ses-` token at all,
contrary to the claimed
`sub-<ID>_ses-<N>_<roleToken>.<ext>` filename pattern. -/
theorem C3_counterexample :
    renameSize ["r1.nii", "r2.nii"] ["", "data", "0001_1", "FUNCTIONAL"] "sub-0001" "1"
        2 "/dest"
        (fun f => if f = "/data/0001_1/FUNCTIONAL/r2.nii" then 110592353 else 110592352) =
      some
        ([("/data/0001_1/FUNCTIONAL/r1.nii",
            some "/dest/sub-0001/ses-1/func/sub-0001_task-rest_run-01_bold.nii"),
          ("/data/0001_1/FUNCTIONAL/r2.nii",
            some "/dest/sub-0001/ses-1/func/sub-0001_task-rest_run-05_bold.nii")],
         [("MCR", "No scan files matching expected size for MCR"),
          ("SWM", "No scan files matching expected size for SWM"),
          ("DD", "Unable to identify DD scan from choices: []")]) ∧
    pyBasename "/dest/sub-0001/ses-1/func/sub-0001_task-rest_run-01_bold.nii" =
      "sub-0001_task-rest_run-01_bold.nii" ∧
    ¬ "ses-".data <:+: "sub-0001_task-rest_run-01_bold.nii".data := by
  refine ⟨rfl, rfl, by decide⟩

/-- C4 (counterexample): two files tie on smallest absolute difference from
the target (sizes `target - 2` and `target + 2`). The claim requires the
last-listed tied file (`b.nii`) to be mapped; the code maps `a.nii` — Python's
`min` keeps the first minimizer and the `[-1]` tie-break only ranges over
files sharing that first minimizer's exact size. -/
theorem C4_counterexample :
    pyAbsSub right_size 28836190 = pyAbsSub right_size 28836194 ∧
    renameSize ["a.nii", "b.nii"] ["", "data", "0001_1", "ANATOMY"] "sub-0001" "1" 2
        "/dest"
        (fun f => if f = "/data/0001_1/ANATOMY/a.nii" then 28836190 else 28836194) =
      some
        ([("/data/0001_1/ANATOMY/a.nii",
            some "/dest/sub-0001/ses-1/anat/sub-0001_ses-1__acq-MPRAGE_T1w.nii")],
         [("a.nii", "No mprage of expected size. Used closest match: a.nii"),
          ("Unmapped files",
            "The following files were not moved and renamed: [\x27/data/0001_1/ANATOMY/b.nii\x27]")]) ∧
    List.lookup "/data/0001_1/ANATOMY/b.nii"
      [("/data/0001_1/ANATOMY/a.nii",
        some "/dest/sub-0001/ses-1/anat/sub-0001_ses-1__acq-MPRAGE_T1w.nii")] = none := by
  refine ⟨rfl, rfl, rfl⟩

/-- C5 (counterexample): the size windows are half-open. The resting-state
window's midpoint is `110592352` with tolerance `2000`; a file of size exactly
`midpoint + tolerance = 110594352` is *not* placed in the resting-state bucket
but in the leftover bucket, contrary to the claimed inclusiveness at both
ends. -/
theorem C5_counterexample :
    (110594352 : Nat) = 110592352 + 2000 ∧
    functionalBuckets ["f"] (fun _ => 110592352) = (["f"], [], [], []) ∧
    functionalBuckets ["f"] (fun _ => 110594352) = ([], [], [], ["f"]) := by
  refine ⟨rfl, rfl, rfl⟩

/-- C7 (counterexample): with configured destination folder names
`scan_types = ["x"]`, the scaffolding is created under `.../x`, but a mapped
anatomical file's destination still uses the hardcoded folder component
`"anat"`, which is not one of the configured names. -/
theorem C7_counterexample :
    scaffoldDirs "/dest" ["0001_1"] ["x"] 1 = ["/dest/sub-0001/ses-1/x"] ∧
    renameSize ["a.nii"] ["", "data", "0001_1", "ANATOMY"] "sub-0001" "1" 1 "/dest"
        (fun _ => 28836192) =
      some
        ([("/data/0001_1/ANATOMY/a.nii",
            some "/dest/sub-0001/ses-1/anat/sub-0001_ses-1__acq-MPRAGE_T1w.nii")], []) ∧
    (pySplit "/dest/sub-0001/ses-1/anat/sub-0001_ses-1__acq-MPRAGE_T1w.nii" '/').get? 4 =
      some "anat" ∧
    "anat" ∉ ["x"] := by
  refine ⟨rfl, rfl, rfl, by decide⟩

end Bidsify
